import Mathlib

/-!
Slippage dashboard: parameter validation, transform pipeline, recommendations.

A shallow embedding of `script.js`.

* The values read from the form by `getAnalysisParameters` are the results of
  `parseInt` / `parseFloat`, so they are JavaScript numbers that may be `NaN`
  (empty or non-numeric text) or infinite.  `JSNum` keeps those cases, because
  the validator consists of nothing but comparisons and every comparison with
  `NaN` is false.
* The arithmetic of the transform pipeline is idealised: numbers are elements
  of a linearly ordered field (`ℚ` for evaluation, `ℝ` for the statements that
  involve `Math.sin` / `Math.sqrt`), so rounding, `NaN` and infinities are not
  represented there.
-/

set_option autoImplicit false

namespace SlippageDashboard

/-! ## JavaScript numbers as read from the form -/

/-- A JavaScript number: `NaN`, an infinity, or a finite value. -/
inductive JSNum where
  | nan : JSNum
  | negInf : JSNum
  | fin (q : ℚ) : JSNum
  | posInf : JSNum
deriving DecidableEq

namespace JSNum

/-- The JavaScript comparison `a < b`: false as soon as one side is `NaN`. -/
def lt : JSNum → JSNum → Bool
  | nan, _ => false
  | _, nan => false
  | negInf, negInf => false
  | negInf, _ => true
  | fin _, negInf => false
  | fin a, fin b => decide (a < b)
  | fin _, posInf => true
  | posInf, _ => false

/-- The JavaScript comparison `a > b`. -/
def gt (a b : JSNum) : Bool := lt b a

/-- The value lies in the inclusive range `[lo, hi]`: it is a finite number
between the two bounds. -/
def InRange (lo hi : ℚ) : JSNum → Prop
  | fin q => lo ≤ q ∧ q ≤ hi
  | _ => False

instance (lo hi : ℚ) (x : JSNum) : Decidable (InRange lo hi x) := by
  cases x <;> unfold InRange <;> infer_instance

end JSNum

/-! ## Data model -/

/-- The object returned by `getAnalysisParameters`, over a number type `ν`. -/
structure AnalysisParameters (ν : Type) where
  ticker : String
  sample_size : ν
  order_size_points : ν
  book_depth_pct : ν
  total_shares : ν
  trading_intervals : ν

/-! ## Parameter validator -/

def msgSampleSize : String := "Sample size must be between 100 and 5000"
def msgOrderSizePoints : String := "Order size points must be between 10 and 50"
def msgBookDepth : String := "Book depth must be between 10% and 100%"
def msgTotalShares : String := "Total shares must be between 1,000 and 1,000,000"
def msgTradingIntervals : String := "Trading intervals must be between 5 and 20"

/-- The function `validateParameters`; `params` is what `getAnalysisParameters()`
returned.  Five independent `if` statements, each pushing one message. -/
def validateParameters (params : AnalysisParameters JSNum) : List String :=
  let errors : List String := []
  let errors :=
    if params.sample_size.lt (.fin 100) || params.sample_size.gt (.fin 5000) then
      errors ++ [msgSampleSize] else errors
  let errors :=
    if params.order_size_points.lt (.fin 10) || params.order_size_points.gt (.fin 50) then
      errors ++ [msgOrderSizePoints] else errors
  let errors :=
    if params.book_depth_pct.lt (.fin 10) || params.book_depth_pct.gt (.fin 100) then
      errors ++ [msgBookDepth] else errors
  let errors :=
    if params.total_shares.lt (.fin 1000) || params.total_shares.gt (.fin 1000000) then
      errors ++ [msgTotalShares] else errors
  let errors :=
    if params.trading_intervals.lt (.fin 5) || params.trading_intervals.gt (.fin 20) then
      errors ++ [msgTradingIntervals] else errors
  errors

/-- All five bounded fields lie in their inclusive ranges. -/
def AllInRange (params : AnalysisParameters JSNum) : Prop :=
  params.sample_size.InRange 100 5000 ∧
  params.order_size_points.InRange 10 50 ∧
  params.book_depth_pct.InRange 10 100 ∧
  params.total_shares.InRange 1000 1000000 ∧
  params.trading_intervals.InRange 5 20

/-- The messages of the fields that are not in range, in the fixed order
sample size, order size points, book depth, total shares, trading intervals. -/
def expectedMessages (params : AnalysisParameters JSNum) : List String :=
  (if params.sample_size.InRange 100 5000 then [] else [msgSampleSize]) ++
  (if params.order_size_points.InRange 10 50 then [] else [msgOrderSizePoints]) ++
  (if params.book_depth_pct.InRange 10 100 then [] else [msgBookDepth]) ++
  (if params.total_shares.InRange 1000 1000000 then [] else [msgTotalShares]) ++
  (if params.trading_intervals.InRange 5 20 then [] else [msgTradingIntervals])

/-- No field of the parameter set is `NaN`. -/
def NoNaN (params : AnalysisParameters JSNum) : Prop :=
  params.sample_size ≠ .nan ∧ params.order_size_points ≠ .nan ∧
  params.book_depth_pct ≠ .nan ∧ params.total_shares ≠ .nan ∧
  params.trading_intervals ≠ .nan

/-- The form state in which the total-shares field is empty (so that
`parseInt` yields `NaN`) and the four sliders hold their default values. -/
def emptyTotalShares : AnalysisParameters JSNum :=
  { ticker := "CRWV", sample_size := .fin 1000, order_size_points := .fin 20,
    book_depth_pct := .fin 50, total_shares := .nan, trading_intervals := .fin 10 }

/-! ## Transform pipeline: data -/

/-- One observation of `slippage_data`. -/
structure Observation (α : Type) where
  order_size : α
  slippage : α
deriving DecidableEq

/-- The power-law coefficients `model_params.a`, `model_params.b` of a record. -/
structure ModelParams (α : Type) where
  a : α
  b : α
deriving DecidableEq

/-- A non-null element of `results.json`. -/
structure TickerRecord (α : Type) where
  ticker : String
  model_params : ModelParams α
  slippage_data : List (Observation α)
deriving DecidableEq

/-- The functions of the global `Math` object that have no algebraic
definition; `Math.floor`, `Math.max`, `Math.min` and `Math.round` come from the
order structure of the number type. -/
structure JSMath (α : Type) where
  PI : α
  sin : α → α
  sqrt : α → α
  pow : α → α → α

structure LinearParams (α : Type) where
  beta : α
deriving DecidableEq

structure ResultModelParams (α : Type) where
  linear : LinearParams α
  power_law : ModelParams α
deriving DecidableEq

structure Allocation (α : Type) where
  total_shares : α
  intervals : α
  allocations : List α
deriving DecidableEq

/-- The object `risk_metrics`.  `Math.max()` of no arguments is `-Infinity` and
`Math.min()` is `Infinity`, hence the extended types of the two extrema. -/
structure RiskMetrics (α : Type) where
  total_slippage_cost : α
  max_allocation : WithBot α
  min_allocation : WithTop α
  allocation_variance : α
  allocation_std : α

/-- The object `analysis_params` written by `simulateAnalysis`. -/
structure AnalysisSnapshot (α : Type) where
  sample_size : α
  order_size_points : α
  book_depth_pct : α
  timestamp : String
deriving DecidableEq

/-- The object returned by `simulateAnalysis`. -/
structure AnalysisResult (α : Type) where
  ticker : String
  model_params : ResultModelParams α
  slippage_data : List (Observation α)
  allocation : Allocation α
  risk_metrics : RiskMetrics α
  analysis_params : AnalysisSnapshot α

/-! ## Transform pipeline: operations -/

section Pipeline

variable {α : Type} [LinearOrderedField α] [FloorRing α]

/-- The call `xs.slice(0, stop)` for an integral `stop`: a negative `stop`
counts from the end of the array, a non-negative one is capped by the length. -/
def slice0 {β : Type} (xs : List β) (stop : ℤ) : List β :=
  let len : ℤ := xs.length
  let final : ℤ := if stop < 0 then max (len + stop) 0 else min stop len
  xs.take final.toNat

/-- The length that `Array.from` reads from `{length: x}`: `x` truncated to an
integer, and 0 when that is negative (the engine's upper limits on array
lengths are not modelled). -/
def toLength (x : α) : ℕ := (Int.floor x).toNat

/-- The call `Array.from({length: n}, (_, i) => f i)`. -/
def arrayFrom (n : α) (f : ℕ → α) : List α :=
  (List.range (toLength n)).map f

/-- The function `calculateVariance`.  For the empty array the code divides
`0 / 0` and returns `NaN`; the statements about this function assume a
non-empty array. -/
def calculateVariance (M : JSMath α) (arr : List α) : α :=
  let mean := arr.foldl (fun sum val => sum + val) 0 / (arr.length : α)
  arr.foldl (fun sum val => sum + M.pow (val - mean) 2) 0 / (arr.length : α)

/-- The callback `data.find` is given: a non-null record with the ticker. -/
def isTicker (ticker : String) : Option (TickerRecord α) → Bool
  | some d => decide (d.ticker = ticker)
  | none => false

/-- The lookup `data.find(d => d && d.ticker === ticker)`; `undefined` is
`none`. -/
def findTicker (data : List (Option (TickerRecord α))) (ticker : String) :
    Option (TickerRecord α) :=
  (data.find? (isTicker ticker)).join

/-- The text of the error thrown when no record is found. -/
def notFoundMessage (ticker : String) : String :=
  "No data found for ticker " ++ ticker

/-- The body of `simulateAnalysis` after the record has been found:
`tickerData` is the record, `now` the value of `new Date().toISOString()`.
The arithmetic is exact.  In particular the number of observations kept is the
floor of the exact product `length * sampleRatio * pointsRatio`, where the code
takes the floor of the product rounded to double precision; the two differ
when the exact product is an integer and the rounded one falls just below it
(length 24, `sample_size` 350, `order_size_points` 50: 21 against 20). -/
def simulateRecord (M : JSMath α) (tickerData : TickerRecord α) (now : String)
    (params : AnalysisParameters α) : AnalysisResult α :=
  let modifiedData := tickerData
  let sampleRatio := params.sample_size / 1000
  let pointsRatio := params.order_size_points / 20
  let depthRatio := params.book_depth_pct / 50
  let slippage_data :=
    (slice0 modifiedData.slippage_data
        (Int.floor ((modifiedData.slippage_data.length : α) * sampleRatio * pointsRatio))).map
      (fun d => { d with
        order_size := d.order_size * depthRatio,
        slippage := d.slippage * (1 + (sampleRatio - 1) * 0.1) })
  let totalShares := params.total_shares
  let intervals := params.trading_intervals
  let baseAllocation := totalShares / intervals
  let allocations := arrayFrom intervals (fun i =>
    let variation := M.sin ((i : α) * M.PI / intervals) * 0.2
    baseAllocation * (1 + variation))
  { ticker := params.ticker,
    model_params :=
      { linear := { beta := modifiedData.model_params.a * 1000 },
        power_law := { a := modifiedData.model_params.a, b := modifiedData.model_params.b } },
    slippage_data := slippage_data,
    allocation :=
      { total_shares := totalShares, intervals := intervals, allocations := allocations },
    risk_metrics :=
      { total_slippage_cost := allocations.foldl (fun sum a =>
          sum + a * modifiedData.model_params.a * M.pow a modifiedData.model_params.b) 0,
        max_allocation := allocations.foldl (fun m a => max m (a : WithBot α)) ⊥,
        min_allocation := allocations.foldl (fun m a => min m (a : WithTop α)) ⊤,
        allocation_variance := calculateVariance M allocations,
        allocation_std := M.sqrt (calculateVariance M allocations) },
    analysis_params :=
      { sample_size := params.sample_size,
        order_size_points := params.order_size_points,
        book_depth_pct := params.book_depth_pct,
        timestamp := now } }

/-- The function `simulateAnalysis`; `data` is the parsed `results.json`, whose
elements are records or `null`. -/
def simulateAnalysis (M : JSMath α) (data : List (Option (TickerRecord α))) (now : String)
    (params : AnalysisParameters α) : Except String (AnalysisResult α) :=
  match findTicker data params.ticker with
  | none => .error (notFoundMessage params.ticker)
  | some tickerData => .ok (simulateRecord M tickerData now params)

/-- The function `analyzeSingleTicker`. -/
def analyzeSingleTicker (M : JSMath α) (data : List (Option (TickerRecord α))) (now : String)
    (params : AnalysisParameters α) : Except String (AnalysisResult α) :=
  simulateAnalysis M data now params

/-- What `analyzeAllTickers` leaves behind: the array it returns and the
messages it passed to `showError`, oldest first. -/
structure BatchOutcome (α : Type) where
  results : List (AnalysisResult α)
  shown : List String

/-- One turn of the `for` loop of `analyzeAllTickers`. -/
def analyzeAllStep (M : JSMath α) (data : List (Option (TickerRecord α)))
    (clock : String → String) (params : AnalysisParameters α)
    (st : BatchOutcome α) (ticker : String) : BatchOutcome α :=
  let tickerParams := { params with ticker := ticker }
  match analyzeSingleTicker M data (clock ticker) tickerParams with
  | .ok result => { st with results := st.results ++ [result] }
  | .error message =>
    { st with shown := st.shown ++ ["Failed to analyze " ++ ticker ++ ": " ++ message] }

/-- The fixed enumeration of tickers. -/
def tickers : List String := ["CRWV", "FROG", "SOUN"]

/-- The function `analyzeAllTickers`; `clock t` is the time stamp taken while
ticker `t` is analysed. -/
def analyzeAllTickers (M : JSMath α) (data : List (Option (TickerRecord α)))
    (clock : String → String) (params : AnalysisParameters α) : BatchOutcome α :=
  tickers.foldl (analyzeAllStep M data clock params) { results := [], shown := [] }

end Pipeline

/-! ## Recommendation engine -/

/-- A value of a card's `metrics` mapping: a string or a number. -/
inductive MetricValue (α : Type) where
  | str (s : String) : MetricValue α
  | num (x : α) : MetricValue α
deriving DecidableEq

/-- A recommendation record. -/
structure Recommendation (α : Type) where
  type : String
  title : String
  text : String
  metrics : List (String × MetricValue α)
deriving DecidableEq

/-- The number-to-text conversions of the runtime: `x.toFixed(d)`,
`x.toLocaleString()`, the conversion in a template literal, and the text of
an infinite value. -/
structure JSFormat (α : Type) where
  toFixed : α → ℕ → String
  toLocaleString : α → String
  toStr : α → String
  infinity : String

section Recommendations

variable {α : Type} [LinearOrderedField α] [FloorRing α]

/-- The function `Math.round`: the nearest integer, halves upwards. -/
def jsRound (x : α) : α := (Int.floor (x + 1 / 2) : α)

/-- The text `Math.round(m).toLocaleString()` for a maximum `m`. -/
def roundedMaxText (F : JSFormat α) : WithBot α → String
  | some x => F.toLocaleString (jsRound x)
  | none => "-" ++ F.infinity

/-- The call `xs.reduce(f)` without an initial value; it throws on `[]`. -/
def reduce1 {β : Type} (f : β → β → β) : List β → Option β
  | [] => none
  | x :: xs => some (xs.foldl f x)

/-- The error `reduce` throws on an empty array. -/
def reduceEmptyMessage : String := "Reduce of empty array with no initial value"

/-- The scan for `bestTicker`. -/
def bestOf (results : List (AnalysisResult α)) : Option (AnalysisResult α) :=
  reduce1 (fun best current =>
    if current.risk_metrics.total_slippage_cost < best.risk_metrics.total_slippage_cost
    then current else best) results

/-- The scan for `worstTicker`. -/
def worstOf (results : List (AnalysisResult α)) : Option (AnalysisResult α) :=
  reduce1 (fun worst current =>
    if current.risk_metrics.total_slippage_cost > worst.risk_metrics.total_slippage_cost
    then current else worst) results

/-- The card pushed for `bestTicker`. -/
def bestCard (F : JSFormat α) (bestTicker : AnalysisResult α) : Recommendation α :=
  { type := "success",
    title := "Best Performing Ticker",
    text := bestTicker.ticker ++ " shows the lowest slippage cost (" ++
      F.toFixed bestTicker.risk_metrics.total_slippage_cost 4 ++
      "). Consider prioritizing this ticker for large trades.",
    metrics :=
      [("Best Ticker", .str bestTicker.ticker),
       ("Slippage Cost", .str (F.toFixed bestTicker.risk_metrics.total_slippage_cost 4)),
       ("Max Trade Size", .str (roundedMaxText F bestTicker.risk_metrics.max_allocation))] }

/-- The card pushed for `worstTicker`. -/
def worstCard (F : JSFormat α) (worstTicker : AnalysisResult α) : Recommendation α :=
  { type := "warning",
    title := "Highest Risk Ticker",
    text := worstTicker.ticker ++ " has the highest slippage cost (" ++
      F.toFixed worstTicker.risk_metrics.total_slippage_cost 4 ++
      "). Use smaller trade sizes or more intervals for this ticker.",
    metrics :=
      [("Risky Ticker", .str worstTicker.ticker),
       ("Slippage Cost", .str (F.toFixed worstTicker.risk_metrics.total_slippage_cost 4)),
       ("Suggested Intervals", .num (min (worstTicker.allocation.intervals + 3) 20))] }

/-- The text `(c / total * 100).toFixed(1)`.  For `total = 0` the quotient is
not a finite number: `0 / 0` is `NaN`, and a non-zero `c` divided by zero is an
infinity with the sign of `c`; `toFixed` prints these by name. -/
def ratioText (F : JSFormat α) (c total : α) : String :=
  if total = 0 then
    if c = 0 then "NaN" else if 0 < c then "Infinity" else "-Infinity"
  else
    F.toFixed (c / total * 100) 1

/-- The final card of the comparison. -/
def portfolioCard (F : JSFormat α) (results : List (AnalysisResult α))
    (bestTicker : AnalysisResult α) : Recommendation α :=
  let totalSlippage := results.foldl (fun sum r => sum + r.risk_metrics.total_slippage_cost) 0
  { type := "info",
    title := "Portfolio Allocation Strategy",
    text := "Total portfolio slippage cost: " ++ F.toFixed totalSlippage 4 ++
      ". Allocate larger portions to lower-cost tickers for optimal execution.",
    metrics :=
      [("Total Cost", .str (F.toFixed totalSlippage 4)),
       ("Tickers Analyzed", .num (results.length : α)),
       ("Best Ratio", .str (bestTicker.ticker ++ ": " ++
          ratioText F bestTicker.risk_metrics.total_slippage_cost totalSlippage
          ++ "%"))] }

/-- The function `analyzeComparisonRecommendations`. -/
def analyzeComparisonRecommendations (F : JSFormat α) (results : List (AnalysisResult α)) :
    Except String (List (Recommendation α)) :=
  let recommendations : List (Recommendation α) := []
  match bestOf results with
  | none => .error reduceEmptyMessage
  | some bestTicker =>
    match worstOf results with
    | none => .error reduceEmptyMessage
    | some worstTicker =>
      let recommendations := recommendations ++ [bestCard F bestTicker]
      let recommendations :=
        if worstTicker.ticker ≠ bestTicker.ticker then
          recommendations ++ [worstCard F worstTicker]
        else recommendations
      let recommendations := recommendations ++ [portfolioCard F results bestTicker]
      .ok recommendations

/-- The cost of a result. -/
def cost (r : AnalysisResult α) : α := r.risk_metrics.total_slippage_cost

/-- The element `x` is the earliest element of `xs` of minimum cost. -/
def EarliestMin (x : AnalysisResult α) (xs : List (AnalysisResult α)) : Prop :=
  ∃ before after, xs = before ++ x :: after ∧
    (∀ y ∈ before, cost x < cost y) ∧ (∀ y ∈ after, cost x ≤ cost y)

/-- The element `x` is the earliest element of `xs` of maximum cost. -/
def EarliestMax (x : AnalysisResult α) (xs : List (AnalysisResult α)) : Prop :=
  ∃ before after, xs = before ++ x :: after ∧
    (∀ y ∈ before, cost y < cost x) ∧ (∀ y ∈ after, cost y ≤ cost x)

end Recommendations

/-! ## The real numbers as the number type -/

/-- The global `Math` object over the real numbers. -/
noncomputable def Math : JSMath ℝ :=
  { PI := Real.pi, sin := Real.sin, sqrt := Real.sqrt, pow := fun x y => x ^ y }

/-! ## Vocabulary of the statements -/

/-- The number of bounded fields that are not in their range. -/
def outOfRangeCount (params : AnalysisParameters JSNum) : ℕ :=
  (if params.sample_size.InRange 100 5000 then 0 else 1) +
  (if params.order_size_points.InRange 10 50 then 0 else 1) +
  (if params.book_depth_pct.InRange 10 100 then 0 else 1) +
  (if params.total_shares.InRange 1000 1000000 then 0 else 1) +
  (if params.trading_intervals.InRange 5 20 then 0 else 1)

/-- The dataset has a non-null record with the ticker. -/
def HasRecord {α : Type} (data : List (Option (TickerRecord α))) (ticker : String) : Prop :=
  ∃ d, some d ∈ data ∧ d.ticker = ticker

instance {α : Type} (data : List (Option (TickerRecord α))) (ticker : String) :
    Decidable (HasRecord data ticker) :=
  decidable_of_iff (∃ x ∈ data, ∃ d, x = some d ∧ d.ticker = ticker) (by
    constructor
    · rintro ⟨x, hx, d, rfl, h⟩
      exact ⟨d, hx, h⟩
    · rintro ⟨d, hd, h⟩
      exact ⟨some d, hd, d, rfl, h⟩)

/-- The message `analyzeAllTickers` shows for a ticker without a record. -/
def missingMessage (ticker : String) : String :=
  "Failed to analyze " ++ ticker ++ ": " ++ notFoundMessage ticker

/-! ## A sample dataset -/

/-- A record for `CRWV` with two observations. -/
noncomputable def crwvRecord : TickerRecord ℝ :=
  { ticker := "CRWV",
    model_params := { a := 1 / 1000, b := 1 / 2 },
    slippage_data := [{ order_size := 100, slippage := 1 }, { order_size := 200, slippage := 3 }] }

/-- A record for `SOUN` with one observation. -/
noncomputable def sounRecord : TickerRecord ℝ :=
  { ticker := "SOUN",
    model_params := { a := 2 / 1000, b := 1 / 2 },
    slippage_data := [{ order_size := 50, slippage := 2 }] }

/-- A dataset with a `null` placeholder and no record for `FROG`. -/
noncomputable def sampleData : List (Option (TickerRecord ℝ)) :=
  [none, some crwvRecord, some sounRecord]

/-- The default form values, for the ticker `CRWV`. -/
noncomputable def defaultParams : AnalysisParameters ℝ :=
  { ticker := "CRWV", sample_size := 1000, order_size_points := 20, book_depth_pct := 50,
    total_shares := 50000, trading_intervals := 10 }

/-! ## Sample results for the comparison -/

/-- A decimal rendering with `d` digits after the point. -/
def fixedText (x : ℚ) (d : ℕ) : String :=
  let n : ℕ := (Int.floor (|x| * 10 ^ d + 1 / 2)).toNat
  let whole := toString (n / 10 ^ d)
  let frac := toString (n % 10 ^ d)
  let pad := String.mk (List.replicate (d - frac.length) '0')
  (if x < 0 then "-" else "") ++ whole ++ (if d = 0 then "" else "." ++ pad ++ frac)

/-- A rendering of rational numbers for the examples. -/
def sampleFormat : JSFormat ℚ :=
  { toFixed := fixedText,
    toLocaleString := fun x => fixedText x 0,
    toStr := fun x => fixedText x 0,
    infinity := "∞" }

/-- A result with the given ticker and total slippage cost, for a schedule of
ten equal allocations of 5000 shares. -/
def resultWithCost (ticker : String) (c : ℚ) : AnalysisResult ℚ :=
  { ticker := ticker,
    model_params := { linear := { beta := 1 }, power_law := { a := 1 / 1000, b := 1 / 2 } },
    slippage_data := [],
    allocation := { total_shares := 50000, intervals := 10, allocations := List.replicate 10 5000 },
    risk_metrics :=
      { total_slippage_cost := c, max_allocation := ((5000 : ℚ) : WithBot ℚ),
        min_allocation := ((5000 : ℚ) : WithTop ℚ), allocation_variance := 0,
        allocation_std := 0 },
    analysis_params :=
      { sample_size := 1000, order_size_points := 20, book_depth_pct := 50,
        timestamp := "2025-07-29T05:56:43.000Z" } }

/-! ## Recommendations for one result, and the display of a run -/

section SingleRecommendations

variable {α : Type} [LinearOrderedField α] [FloorRing α]

/-- The text `Math.round(m).toLocaleString()` for a minimum `m`. -/
def roundedMinText (F : JSFormat α) : WithTop α → String
  | some x => F.toLocaleString (jsRound x)
  | none => F.infinity

/-- The card pushed when `total_slippage_cost > 0.01`. -/
def highCostCard (F : JSFormat α) (result : AnalysisResult α) : Recommendation α :=
  { type := "warning",
    title := "High Slippage Cost Detected",
    text := "Total slippage cost of " ++ F.toFixed result.risk_metrics.total_slippage_cost 4 ++
      " is relatively high. Consider reducing order sizes or extending trading intervals.",
    metrics :=
      [("Current Cost", .str (F.toFixed result.risk_metrics.total_slippage_cost 4)),
       ("Suggested Intervals", .num (min (result.allocation.intervals + 5) 20))] }

/-- The card pushed when `total_slippage_cost > 0.01` is false. -/
def optimalCostCard (F : JSFormat α) (result : AnalysisResult α) : Recommendation α :=
  { type := "success",
    title := "Optimal Slippage Cost",
    text := "Slippage cost of " ++ F.toFixed result.risk_metrics.total_slippage_cost 4 ++
      " is within acceptable range. Current allocation strategy is efficient.",
    metrics :=
      [("Current Cost", .str (F.toFixed result.risk_metrics.total_slippage_cost 4)),
       ("Efficiency", .str "High")] }

/-- The constant `allocationCV` of `analyzeSingleTickerRecommendations`.  Where
`total_shares / intervals` is zero the code divides by zero and gets an
infinity or `NaN`; the statements about this quotient assume a non-zero
divisor. -/
def allocationCV (result : AnalysisResult α) : α :=
  result.risk_metrics.allocation_std /
    (result.allocation.total_shares / result.allocation.intervals)

/-- The card pushed when `allocationCV > 0.3`. -/
def varianceCard (F : JSFormat α) (result : AnalysisResult α) : Recommendation α :=
  { type := "warning",
    title := "High Allocation Variance",
    text := "Allocation variance is high (CV: " ++ F.toFixed (allocationCV result) 2 ++
      "). Consider smoothing the allocation across intervals.",
    metrics :=
      [("Coefficient of Variation", .str (F.toFixed (allocationCV result) 2)),
       ("Max Allocation", .str (roundedMaxText F result.risk_metrics.max_allocation)),
       ("Min Allocation", .str (roundedMinText F result.risk_metrics.min_allocation))] }

/-- The card pushed last by `analyzeSingleTickerRecommendations`. -/
def strategyCard (F : JSFormat α) (result : AnalysisResult α) : Recommendation α :=
  let avgAllocation := result.allocation.total_shares / result.allocation.intervals
  { type := "info",
    title := "Trading Strategy Recommendation",
    text := "Execute " ++ F.toStr result.allocation.intervals ++
      " trades with average size of " ++ F.toLocaleString (jsRound avgAllocation) ++
      " shares. Monitor market conditions and adjust timing accordingly.",
    metrics :=
      [("Total Intervals", .num result.allocation.intervals),
       ("Avg Trade Size", .str (F.toLocaleString (jsRound avgAllocation))),
       ("Total Shares", .str (F.toLocaleString result.allocation.total_shares))] }

/-- The function `analyzeSingleTickerRecommendations`. -/
def analyzeSingleTickerRecommendations (F : JSFormat α) (result : AnalysisResult α) :
    List (Recommendation α) :=
  let recommendations : List (Recommendation α) := []
  let metrics := result.risk_metrics
  let recommendations :=
    if metrics.total_slippage_cost > 0.01 then
      recommendations ++ [highCostCard F result]
    else
      recommendations ++ [optimalCostCard F result]
  let recommendations :=
    if allocationCV result > 0.3 then
      recommendations ++ [varianceCard F result]
    else recommendations
  let recommendations := recommendations ++ [strategyCard F result]
  recommendations

/-- The branch of `generateTradingRecommendations` that was taken. -/
inductive RecommendationBranch where
  | single : RecommendationBranch
  | comparison : RecommendationBranch
deriving DecidableEq

/-- What `generateTradingRecommendations` does: the branch it takes and the
cards it appends. -/
structure RecommendationRun (α : Type) where
  branch : RecommendationBranch
  cards : List (Recommendation α)

/-- The function `generateTradingRecommendations`; the error is the one
`analyzeComparisonRecommendations` throws. -/
def generateTradingRecommendations (F : JSFormat α) (results : List (AnalysisResult α)) :
    Except String (RecommendationRun α) :=
  if h : results.length = 1 then
    let result := results.get ⟨0, by omega⟩
    let recommendations := analyzeSingleTickerRecommendations F result
    .ok { branch := .single, cards := recommendations }
  else
    match analyzeComparisonRecommendations F results with
    | .ok recommendations => .ok { branch := .comparison, cards := recommendations }
    | .error message => .error message

/-- The function `showComparisonSection`, without the chart: its last
statement calls `generateTradingRecommendations`. -/
def showComparisonSection (F : JSFormat α) (results : List (AnalysisResult α)) :
    Except String (RecommendationRun α) :=
  generateTradingRecommendations F results

/-- What `displayResults` does: the tickers of the sections it appends, and
the recommendations when `showComparisonSection` is called. -/
structure DisplayOutcome (α : Type) where
  sections : List String
  recommendations : Option (RecommendationRun α)

/-- The function `displayResults`. -/
def displayResults (F : JSFormat α) (results : List (AnalysisResult α)) :
    Except String (DisplayOutcome α) :=
  let sections := results.map (fun result => result.ticker)
  if results.length > 1 then
    match showComparisonSection F results with
    | .ok run => .ok { sections := sections, recommendations := some run }
    | .error message => .error message
  else
    .ok { sections := sections, recommendations := none }

/-- What a call of `runAnalysis` leaves behind: what `displayResults` did
(`none` when it was not called or threw), the value assigned to
`currentResults` (`none` when none was assigned), and the messages passed to
`showError`, oldest first. -/
structure RunOutcome (α : Type) where
  displayed : Option (DisplayOutcome α)
  currentResults : Option (List (AnalysisResult α))
  shown : List String

/-- The `try` block of `runAnalysis` after the call of `displayResults`. -/
def finishRun (results : List (AnalysisResult α)) (shown : List String) :
    Except String (DisplayOutcome α) → RunOutcome α
  | .ok d => { displayed := some d, currentResults := some results, shown := shown }
  | .error message =>
    { displayed := none, currentResults := none,
      shown := shown ++ ["Analysis failed: " ++ message] }

/-- The function `runAnalysis`: `raw` is what `getAnalysisParameters()` returns
to the validator, `params` the same object with its numbers in the number type
of the pipeline. -/
def runAnalysis (M : JSMath α) (F : JSFormat α) (data : List (Option (TickerRecord α)))
    (clock : String → String) (raw : AnalysisParameters JSNum)
    (params : AnalysisParameters α) : RunOutcome α :=
  let validationErrors := validateParameters raw
  if validationErrors.length > 0 then
    { displayed := none, currentResults := none,
      shown := ["Analysis failed: " ++ "; ".intercalate validationErrors] }
  else
    let ticker := params.ticker
    if ticker = "ALL" then
      let batch := analyzeAllTickers M data clock params
      finishRun batch.results batch.shown (displayResults F batch.results)
    else
      match analyzeSingleTicker M data (clock ticker) params with
      | .ok result => finishRun [result] [] (displayResults F [result])
      | .error message =>
        { displayed := none, currentResults := none,
          shown := ["Analysis failed: " ++ message] }

/-- The own properties of the object `analysis_params`, in the order in which
`simulateAnalysis` writes them. -/
def AnalysisSnapshot.entries (s : AnalysisSnapshot α) : List (String × MetricValue α) :=
  [("sample_size", .num s.sample_size),
   ("order_size_points", .num s.order_size_points),
   ("book_depth_pct", .num s.book_depth_pct),
   ("timestamp", .str s.timestamp)]

/-- The property read `analysis_params[key]`; `undefined` is `none`. -/
def AnalysisSnapshot.get (s : AnalysisSnapshot α) (key : String) : Option (MetricValue α) :=
  s.entries.lookup key

end SingleRecommendations

/-- A decimal rendering of a real number with `d` digits after the point. -/
noncomputable def realFixedText (x : ℝ) (d : ℕ) : String :=
  let n : ℕ := (Int.floor (|x| * 10 ^ d + 1 / 2)).toNat
  let whole := toString (n / 10 ^ d)
  let frac := toString (n % 10 ^ d)
  let pad := String.mk (List.replicate (d - frac.length) '0')
  (if x < 0 then "-" else "") ++ whole ++ (if d = 0 then "" else "." ++ pad ++ frac)

/-- A rendering of real numbers for the examples. -/
noncomputable def realFormat : JSFormat ℝ :=
  { toFixed := realFixedText,
    toLocaleString := fun x => realFixedText x 0,
    toStr := fun x => realFixedText x 0,
    infinity := "∞" }

/-! ## Validator: lemmas -/

theorem JSNum.outside_iff (lo hi : ℚ) (x : JSNum) (hx : x ≠ .nan) :
    (x.lt (.fin lo) || x.gt (.fin hi)) = true ↔ ¬ x.InRange lo hi := by
  cases x with
  | nan => exact absurd rfl hx
  | negInf => simp [JSNum.lt, JSNum.gt, JSNum.InRange]
  | posInf => simp [JSNum.lt, JSNum.gt, JSNum.InRange]
  | fin q =>
    simp only [JSNum.lt, JSNum.gt, JSNum.InRange, Bool.or_eq_true, decide_eq_true_eq, not_and,
      not_le]
    constructor
    · rintro (h | h)
      · intro h2; exact absurd h2 (not_le.mpr h)
      · intro _; exact h
    · intro h
      by_cases h1 : q < lo
      · exact Or.inl h1
      · exact Or.inr (h (not_lt.mp h1))

theorem JSNum.inRange_not_outside (lo hi : ℚ) (x : JSNum) (h : x.InRange lo hi) :
    (x.lt (.fin lo) || x.gt (.fin hi)) = false := by
  cases x with
  | fin q =>
    obtain ⟨h1, h2⟩ := h
    simp [JSNum.lt, JSNum.gt, h1, h2]
  | nan => exact h.elim
  | negInf => exact h.elim
  | posInf => exact h.elim

/-- In-range parameter sets (boundary values included) are accepted. -/
theorem validateParameters_of_allInRange (params : AnalysisParameters JSNum)
    (h : AllInRange params) : validateParameters params = [] := by
  obtain ⟨h1, h2, h3, h4, h5⟩ := h
  simp [validateParameters, JSNum.inRange_not_outside _ _ _ h1,
    JSNum.inRange_not_outside _ _ _ h2, JSNum.inRange_not_outside _ _ _ h3,
    JSNum.inRange_not_outside _ _ _ h4, JSNum.inRange_not_outside _ _ _ h5]

/-- On parameter sets without `NaN` the validator returns exactly the messages
of the fields that are not in range, in the fixed order. -/
theorem validateParameters_eq_expected (params : AnalysisParameters JSNum)
    (h : NoNaN params) : validateParameters params = expectedMessages params := by
  obtain ⟨h1, h2, h3, h4, h5⟩ := h
  have e1 := JSNum.outside_iff 100 5000 _ h1
  have e2 := JSNum.outside_iff 10 50 _ h2
  have e3 := JSNum.outside_iff 10 100 _ h3
  have e4 := JSNum.outside_iff 1000 1000000 _ h4
  have e5 := JSNum.outside_iff 5 20 _ h5
  unfold validateParameters expectedMessages
  by_cases c1 : params.sample_size.InRange 100 5000 <;>
  by_cases c2 : params.order_size_points.InRange 10 50 <;>
  by_cases c3 : params.book_depth_pct.InRange 10 100 <;>
  by_cases c4 : params.total_shares.InRange 1000 1000000 <;>
  by_cases c5 : params.trading_intervals.InRange 5 20 <;>
  simp [c1, c2, c3, c4, c5, e1, e2, e3, e4, e5]

/-- On parameter sets without `NaN`: no message iff all five fields in range. -/
theorem validateParameters_nil_iff (params : AnalysisParameters JSNum)
    (h : NoNaN params) : validateParameters params = [] ↔ AllInRange params := by
  rw [validateParameters_eq_expected params h]
  unfold expectedMessages AllInRange
  by_cases c1 : params.sample_size.InRange 100 5000 <;>
  by_cases c2 : params.order_size_points.InRange 10 50 <;>
  by_cases c3 : params.book_depth_pct.InRange 10 100 <;>
  by_cases c4 : params.total_shares.InRange 1000 1000000 <;>
  by_cases c5 : params.trading_intervals.InRange 5 20 <;>
  simp [c1, c2, c3, c4, c5]

theorem expectedMessages_length (params : AnalysisParameters JSNum) :
    (expectedMessages params).length = outOfRangeCount params := by
  unfold expectedMessages outOfRangeCount
  by_cases c1 : params.sample_size.InRange 100 5000 <;>
  by_cases c2 : params.order_size_points.InRange 10 50 <;>
  by_cases c3 : params.book_depth_pct.InRange 10 100 <;>
  by_cases c4 : params.total_shares.InRange 1000 1000000 <;>
  by_cases c5 : params.trading_intervals.InRange 5 20 <;>
  simp [c1, c2, c3, c4, c5]

/-- On parameter sets without `NaN` there are as many messages as fields out
of range. -/
theorem validateParameters_length (params : AnalysisParameters JSNum) (h : NoNaN params) :
    (validateParameters params).length = outOfRangeCount params := by
  rw [validateParameters_eq_expected params h, expectedMessages_length]

/-- The form state with the empty total-shares field passes the validator. -/
theorem validateParameters_emptyTotalShares : validateParameters emptyTotalShares = [] := by
  simp [validateParameters, emptyTotalShares, JSNum.lt, JSNum.gt]
  norm_num

/-! ## Lookup of a ticker record -/

section LookupLemmas

variable {α : Type}

theorem findTicker_nil (ticker : String) :
    findTicker ([] : List (Option (TickerRecord α))) ticker = none := rfl

theorem findTicker_cons_none (data : List (Option (TickerRecord α))) (ticker : String) :
    findTicker (none :: data) ticker = findTicker data ticker := by
  simp [findTicker, List.find?, isTicker]

theorem findTicker_cons_some (d : TickerRecord α) (data : List (Option (TickerRecord α)))
    (ticker : String) :
    findTicker (some d :: data) ticker =
      if d.ticker = ticker then some d else findTicker data ticker := by
  by_cases h : d.ticker = ticker <;> simp [findTicker, List.find?, isTicker, h]

/-- The lookup finds nothing iff no non-null record carries the ticker. -/
theorem findTicker_eq_none_iff (data : List (Option (TickerRecord α))) (ticker : String) :
    findTicker data ticker = none ↔ ∀ d, some d ∈ data → d.ticker ≠ ticker := by
  induction data with
  | nil => simp [findTicker_nil]
  | cons x xs ih =>
    cases x with
    | none => simp [findTicker_cons_none, ih]
    | some d =>
      rw [findTicker_cons_some]
      by_cases h : d.ticker = ticker
      · simp only [h, if_true]
        constructor
        · intro hc; cases hc
        · intro hall; exact absurd h (hall d (List.mem_cons_self _ _))
      · simp only [h, if_false, ih]
        constructor
        · intro hall e he
          rcases List.mem_cons.mp he with he | he
          · cases he; exact h
          · exact hall e he
        · intro hall e he
          exact hall e (List.mem_cons_of_mem _ he)

/-- The lookup returns the first non-null record with the ticker. -/
theorem findTicker_eq_some_iff (data : List (Option (TickerRecord α))) (ticker : String)
    (d : TickerRecord α) :
    findTicker data ticker = some d ↔
      ∃ before after, data = before ++ some d :: after ∧ d.ticker = ticker ∧
        ∀ e, some e ∈ before → e.ticker ≠ ticker := by
  induction data with
  | nil => simp [findTicker_nil]
  | cons x xs ih =>
    constructor
    · intro hfind
      cases x with
      | none =>
        rw [findTicker_cons_none] at hfind
        obtain ⟨before, after, hxs, ht, hb⟩ := ih.mp hfind
        refine ⟨none :: before, after, by simp [hxs], ht, ?_⟩
        intro e he
        rcases List.mem_cons.mp he with he | he
        · cases he
        · exact hb e he
      | some c =>
        rw [findTicker_cons_some] at hfind
        by_cases h : c.ticker = ticker
        · simp only [h, if_true, Option.some.injEq] at hfind
          subst hfind
          exact ⟨[], xs, rfl, h, by simp⟩
        · simp only [h, if_false] at hfind
          obtain ⟨before, after, hxs, ht, hb⟩ := ih.mp hfind
          refine ⟨some c :: before, after, by simp [hxs], ht, ?_⟩
          intro e he
          rcases List.mem_cons.mp he with he | he
          · cases he; exact h
          · exact hb e he
    · rintro ⟨before, after, hdata, ht, hb⟩
      cases before with
      | nil =>
        simp only [List.nil_append, List.cons.injEq] at hdata
        obtain ⟨hx, -⟩ := hdata
        subst hx
        rw [findTicker_cons_some, if_pos ht]
      | cons b bs =>
        simp only [List.cons_append, List.cons.injEq] at hdata
        obtain ⟨hx, hxs⟩ := hdata
        subst hx
        have hrest : findTicker xs ticker = some d :=
          ih.mpr ⟨bs, after, hxs, ht, fun e he => hb e (List.mem_cons_of_mem _ he)⟩
        cases x with
        | none => rw [findTicker_cons_none, hrest]
        | some c =>
          rw [findTicker_cons_some, if_neg (hb c (List.mem_cons_self _ _)), hrest]

/-- The lookup finds a record iff the dataset holds a non-null record with the
ticker. -/
theorem hasRecord_iff_find (data : List (Option (TickerRecord α))) (ticker : String) :
    HasRecord data ticker ↔ (findTicker data ticker).isSome = true := by
  unfold HasRecord findTicker
  induction data with
  | nil => simp
  | cons x xs ih =>
    cases x with
    | none =>
      have e : (List.find? (isTicker ticker) (none :: xs)) =
          List.find? (isTicker ticker) xs := by
        simp [List.find?, isTicker]
      rw [e, ← ih]
      constructor
      · rintro ⟨d, hd, ht⟩
        rcases List.mem_cons.mp hd with hd | hd
        · cases hd
        · exact ⟨d, hd, ht⟩
      · rintro ⟨d, hd, ht⟩
        exact ⟨d, List.mem_cons_of_mem _ hd, ht⟩
    | some c =>
      by_cases hc : c.ticker = ticker
      · have e : (List.find? (isTicker ticker) (some c :: xs)) = some (some c) := by
          simp [List.find?, isTicker, hc]
        rw [e]
        simp only [Option.join, Option.some_bind, id_eq, Option.isSome_some, iff_true]
        exact ⟨c, List.mem_cons_self _ _, hc⟩
      · have e : (List.find? (isTicker ticker) (some c :: xs)) =
            List.find? (isTicker ticker) xs := by
          simp [List.find?, isTicker, hc]
        rw [e, ← ih]
        constructor
        · rintro ⟨d, hd, ht⟩
          rcases List.mem_cons.mp hd with hd | hd
          · simp only [Option.some.injEq] at hd
            subst hd
            exact absurd ht hc
          · exact ⟨d, hd, ht⟩
        · rintro ⟨d, hd, ht⟩
          exact ⟨d, List.mem_cons_of_mem _ hd, ht⟩

end LookupLemmas

section PipelineLemmas

variable {α : Type} [LinearOrderedField α] [FloorRing α]

theorem simulateAnalysis_of_find (M : JSMath α) (data : List (Option (TickerRecord α)))
    (now : String) (params : AnalysisParameters α) (tickerData : TickerRecord α)
    (h : findTicker data params.ticker = some tickerData) :
    simulateAnalysis M data now params = .ok (simulateRecord M tickerData now params) := by
  simp [simulateAnalysis, h]

theorem simulateAnalysis_of_find_none (M : JSMath α) (data : List (Option (TickerRecord α)))
    (now : String) (params : AnalysisParameters α)
    (h : findTicker data params.ticker = none) :
    simulateAnalysis M data now params = .error (notFoundMessage params.ticker) := by
  simp [simulateAnalysis, h]

theorem analyzeAllStep_found (M : JSMath α) (data : List (Option (TickerRecord α)))
    (clock : String → String) (params : AnalysisParameters α) (st : BatchOutcome α)
    (ticker : String) (d : TickerRecord α) (h : findTicker data ticker = some d) :
    analyzeAllStep M data clock params st ticker =
      { st with results := st.results ++
          [simulateRecord M d (clock ticker) { params with ticker := ticker }] } := by
  simp [analyzeAllStep, analyzeSingleTicker, simulateAnalysis, h]

theorem analyzeAllStep_missing (M : JSMath α) (data : List (Option (TickerRecord α)))
    (clock : String → String) (params : AnalysisParameters α) (st : BatchOutcome α)
    (ticker : String) (h : findTicker data ticker = none) :
    analyzeAllStep M data clock params st ticker =
      { st with shown := st.shown ++ [missingMessage ticker] } := by
  simp [analyzeAllStep, analyzeSingleTicker, simulateAnalysis, h, missingMessage]

/-- The outcome of `analyzeAllTickers` in terms of the three lookups. -/
theorem analyzeAllTickers_eq (M : JSMath α) (data : List (Option (TickerRecord α)))
    (clock : String → String) (params : AnalysisParameters α) :
    (analyzeAllTickers M data clock params).results =
        ["CRWV", "FROG", "SOUN"].filterMap (fun t =>
          (findTicker data t).map (fun d =>
            simulateRecord M d (clock t) { params with ticker := t })) ∧
      (analyzeAllTickers M data clock params).shown =
        (["CRWV", "FROG", "SOUN"].filter (fun t => (findTicker data t).isNone)).map
          missingMessage := by
  unfold analyzeAllTickers tickers
  simp only [List.foldl_cons, List.foldl_nil]
  cases h1 : findTicker data "CRWV" <;> cases h2 : findTicker data "FROG" <;>
    cases h3 : findTicker data "SOUN" <;>
    simp [analyzeAllStep_found, analyzeAllStep_missing, h1, h2, h3]

/-! ## The call `slice(0, stop)` -/

theorem slice0_length_le {β : Type} (xs : List β) (stop : ℤ) :
    (slice0 xs stop).length ≤ xs.length := by
  simp only [slice0, List.length_take]
  exact min_le_right _ _

theorem slice0_of_nonneg {β : Type} (xs : List β) (stop : ℤ) (h : 0 ≤ stop) :
    slice0 xs stop = xs.take (max 0 (min stop (xs.length : ℤ))).toNat := by
  have h1 : (0 : ℤ) ≤ min stop (xs.length : ℤ) := le_min h (Int.natCast_nonneg _)
  simp only [slice0, not_lt.mpr h, if_false, max_eq_right h1]

theorem slice0_length {β : Type} (xs : List β) :
    slice0 xs (xs.length : ℤ) = xs := by
  rw [slice0_of_nonneg _ _ (Int.natCast_nonneg _)]
  simp

/-- The slippage sample of a result: the sliced and rescaled observations. -/
theorem simulateRecord_slippage_data (M : JSMath α) (tickerData : TickerRecord α)
    (now : String) (params : AnalysisParameters α) :
    (simulateRecord M tickerData now params).slippage_data =
      (slice0 tickerData.slippage_data
        (Int.floor ((tickerData.slippage_data.length : α) * (params.sample_size / 1000) *
          (params.order_size_points / 20)))).map
        (fun d =>
          { order_size := d.order_size * (params.book_depth_pct / 50),
            slippage := d.slippage * (1 + (params.sample_size / 1000 - 1) * 0.1) }) :=
  rfl

end PipelineLemmas

/-! ## Sums written as `reduce`, and the variance -/

section Folds

variable {α : Type} [LinearOrderedField α]

/-- The fold `arr.reduce((sum, val) => sum + f(val), init)` adds the values of
`f` to `init`. -/
theorem foldl_add_eq_sum {β : Type} (f : β → α) (l : List β) (init : α) :
    l.foldl (fun sum val => sum + f val) init = init + (l.map f).sum := by
  induction l generalizing init with
  | nil => simp
  | cons x xs ih => simp [List.foldl_cons, ih, add_assoc]

theorem foldl_add_nonneg {β : Type} (f : β → α) (hf : ∀ x, 0 ≤ f x) (l : List β) :
    0 ≤ l.foldl (fun sum val => sum + f val) 0 := by
  rw [foldl_add_eq_sum, zero_add]
  apply List.sum_nonneg
  intro x hx
  obtain ⟨y, -, rfl⟩ := List.mem_map.mp hx
  exact hf y

end Folds

/-- Over the reals `Math.pow(x, 2)` is the square of `x`. -/
theorem Math_pow_two (x : ℝ) : Math.pow x 2 = x ^ 2 := by
  show x ^ (2 : ℝ) = x ^ 2
  exact Real.rpow_two x

/-- The variance computed by `calculateVariance` is never negative. -/
theorem calculateVariance_nonneg (arr : List ℝ) : 0 ≤ calculateVariance Math arr := by
  unfold calculateVariance
  apply div_nonneg _ (Nat.cast_nonneg _)
  apply foldl_add_nonneg
  intro x
  rw [Math_pow_two]
  exact sq_nonneg _

/-! ## The two scans of the comparison -/

section Scans

variable {α : Type} [LinearOrderedField α]

/-- The scan `reduce((best, current) => current.cost < best.cost ? current : best)`
started at `x` ends at the earliest element of minimum cost. -/
theorem foldl_best_earliestMin (x : AnalysisResult α) (xs : List (AnalysisResult α)) :
    EarliestMin (xs.foldl (fun best current =>
      if current.risk_metrics.total_slippage_cost < best.risk_metrics.total_slippage_cost
      then current else best) x) (x :: xs) := by
  induction xs using List.reverseRecOn with
  | nil => exact ⟨[], [], rfl, by simp, by simp⟩
  | append_singleton xs y ih =>
    rw [List.foldl_append, List.foldl_cons, List.foldl_nil]
    obtain ⟨before, after, hsplit, hb, ha⟩ := ih
    generalize hbest : xs.foldl (fun best current =>
      if current.risk_metrics.total_slippage_cost < best.risk_metrics.total_slippage_cost
      then current else best) x = b at hsplit hb ha ⊢
    by_cases hlt : y.risk_metrics.total_slippage_cost < b.risk_metrics.total_slippage_cost
    · rw [if_pos hlt]
      refine ⟨x :: xs, [], by simp, ?_, by simp⟩
      intro z hz
      rw [hsplit] at hz
      rcases List.mem_append.mp hz with hz | hz
      · exact lt_trans hlt (hb z hz)
      · rcases List.mem_cons.mp hz with hz | hz
        · rw [hz]; exact hlt
        · exact lt_of_lt_of_le hlt (ha z hz)
    · rw [if_neg hlt]
      refine ⟨before, after ++ [y], ?_, hb, ?_⟩
      · rw [← List.cons_append, hsplit]; simp
      · intro z hz
        rcases List.mem_append.mp hz with hz | hz
        · exact ha z hz
        · rw [List.mem_singleton.mp hz]; exact not_lt.mp hlt

/-- The scan `reduce((worst, current) => current.cost > worst.cost ? current : worst)`
started at `x` ends at the earliest element of maximum cost. -/
theorem foldl_worst_earliestMax (x : AnalysisResult α) (xs : List (AnalysisResult α)) :
    EarliestMax (xs.foldl (fun worst current =>
      if current.risk_metrics.total_slippage_cost > worst.risk_metrics.total_slippage_cost
      then current else worst) x) (x :: xs) := by
  induction xs using List.reverseRecOn with
  | nil => exact ⟨[], [], rfl, by simp, by simp⟩
  | append_singleton xs y ih =>
    rw [List.foldl_append, List.foldl_cons, List.foldl_nil]
    obtain ⟨before, after, hsplit, hb, ha⟩ := ih
    generalize hworst : xs.foldl (fun worst current =>
      if current.risk_metrics.total_slippage_cost > worst.risk_metrics.total_slippage_cost
      then current else worst) x = w at hsplit hb ha ⊢
    by_cases hgt : y.risk_metrics.total_slippage_cost > w.risk_metrics.total_slippage_cost
    · rw [if_pos hgt]
      refine ⟨x :: xs, [], by simp, ?_, by simp⟩
      intro z hz
      rw [hsplit] at hz
      rcases List.mem_append.mp hz with hz | hz
      · exact lt_trans (hb z hz) hgt
      · rcases List.mem_cons.mp hz with hz | hz
        · rw [hz]; exact hgt
        · exact lt_of_le_of_lt (ha z hz) hgt
    · rw [if_neg hgt]
      refine ⟨before, after ++ [y], ?_, hb, ?_⟩
      · rw [← List.cons_append, hsplit]; simp
      · intro z hz
        rcases List.mem_append.mp hz with hz | hz
        · exact ha z hz
        · rw [List.mem_singleton.mp hz]; exact not_lt.mp hgt

/-- On a non-empty list the scan for the best result succeeds. -/
theorem bestOf_spec (results : List (AnalysisResult α)) (hne : results ≠ []) :
    ∃ best, bestOf results = some best ∧ EarliestMin best results := by
  cases results with
  | nil => exact absurd rfl hne
  | cons x xs => exact ⟨_, rfl, foldl_best_earliestMin x xs⟩

/-- On a non-empty list the scan for the worst result succeeds. -/
theorem worstOf_spec (results : List (AnalysisResult α)) (hne : results ≠ []) :
    ∃ worst, worstOf results = some worst ∧ EarliestMax worst results := by
  cases results with
  | nil => exact absurd rfl hne
  | cons x xs => exact ⟨_, rfl, foldl_worst_earliestMax x xs⟩

/-- When all costs are equal, the earliest minimum is the head of the list. -/
theorem earliestMin_eq_head {x : AnalysisResult α}
    {xs : List (AnalysisResult α)} (h : EarliestMin x xs)
    (heq : ∀ a ∈ xs, ∀ b ∈ xs, cost a = cost b) : xs.head? = some x := by
  obtain ⟨before, after, hsplit, hb, -⟩ := h
  cases before with
  | nil => simp [hsplit]
  | cons c cs =>
    have hc : c ∈ xs := by rw [hsplit]; simp
    have hx : x ∈ xs := by rw [hsplit]; simp
    exact absurd (heq x hx c hc) (ne_of_lt (hb c (List.mem_cons_self _ _)))

/-- When all costs are equal, the earliest maximum is the head of the list. -/
theorem earliestMax_eq_head {x : AnalysisResult α}
    {xs : List (AnalysisResult α)} (h : EarliestMax x xs)
    (heq : ∀ a ∈ xs, ∀ b ∈ xs, cost a = cost b) : xs.head? = some x := by
  obtain ⟨before, after, hsplit, hb, -⟩ := h
  cases before with
  | nil => simp [hsplit]
  | cons c cs =>
    have hc : c ∈ xs := by rw [hsplit]; simp
    have hx : x ∈ xs := by rw [hsplit]; simp
    exact absurd (heq c hc x hx) (ne_of_lt (hb c (List.mem_cons_self _ _)))

end Scans

/-! ## Sums of bounded lists -/

section ListSums

variable {α : Type} [LinearOrderedField α]

theorem length_mul_le_sum (l : List α) (c : α) (h : ∀ x ∈ l, c ≤ x) :
    (l.length : α) * c ≤ l.sum := by
  induction l with
  | nil => simp
  | cons a as ih =>
    have ha : c ≤ a := h a (List.mem_cons_self _ _)
    have hrest := ih (fun x hx => h x (List.mem_cons_of_mem _ hx))
    simp only [List.length_cons, List.sum_cons, Nat.cast_add, Nat.cast_one]
    linarith

theorem sum_le_length_mul (l : List α) (c : α) (h : ∀ x ∈ l, x ≤ c) :
    l.sum ≤ (l.length : α) * c := by
  induction l with
  | nil => simp
  | cons a as ih =>
    have ha : a ≤ c := h a (List.mem_cons_self _ _)
    have hrest := ih (fun x hx => h x (List.mem_cons_of_mem _ hx))
    simp only [List.length_cons, List.sum_cons, Nat.cast_add, Nat.cast_one]
    linarith

theorem length_mul_lt_sum (l : List α) (c : α) (h : ∀ x ∈ l, c ≤ x)
    (hex : ∃ x ∈ l, c < x) : (l.length : α) * c < l.sum := by
  induction l with
  | nil => obtain ⟨x, hx, -⟩ := hex; cases hx
  | cons a as ih =>
    have ha : c ≤ a := h a (List.mem_cons_self _ _)
    have hall : ∀ x ∈ as, c ≤ x := fun x hx => h x (List.mem_cons_of_mem _ hx)
    simp only [List.length_cons, List.sum_cons, Nat.cast_add, Nat.cast_one]
    obtain ⟨x, hx, hlt⟩ := hex
    rcases List.mem_cons.mp hx with hx | hx
    · subst hx
      have := length_mul_le_sum as c hall
      linarith
    · have := ih hall ⟨x, hx, hlt⟩
      linarith

theorem sum_eq_zero_iff_of_nonneg (l : List α) (h : ∀ x ∈ l, 0 ≤ x) :
    l.sum = 0 ↔ ∀ x ∈ l, x = 0 := by
  induction l with
  | nil => simp
  | cons a as ih =>
    have ha : 0 ≤ a := h a (List.mem_cons_self _ _)
    have hall : ∀ x ∈ as, 0 ≤ x := fun x hx => h x (List.mem_cons_of_mem _ hx)
    have hs : 0 ≤ as.sum := List.sum_nonneg hall
    simp only [List.sum_cons, List.mem_cons, forall_eq_or_imp]
    constructor
    · intro hsum
      have h0 : a = 0 := by linarith
      have h1 : as.sum = 0 := by linarith
      exact ⟨h0, (ih hall).mp h1⟩
    · rintro ⟨h0, h1⟩
      rw [h0, (ih hall).mpr h1, add_zero]

/-- The mean of a non-empty list lies between any two bounds of its elements. -/
theorem mean_mem_bounds (l : List α) (lo hi : α) (hne : l ≠ [])
    (h : ∀ x ∈ l, lo ≤ x ∧ x ≤ hi) :
    lo ≤ l.sum / (l.length : α) ∧ l.sum / (l.length : α) ≤ hi := by
  have hpos : (0 : α) < (l.length : α) := by
    exact_mod_cast List.length_pos.mpr hne
  constructor
  · rw [le_div_iff₀ hpos, mul_comm]
    exact length_mul_le_sum l lo (fun x hx => (h x hx).1)
  · rw [div_le_iff₀ hpos, mul_comm]
    exact sum_le_length_mul l hi (fun x hx => (h x hx).2)

end ListSums

/-! ## The population variance -/

/-- Over the reals `calculateVariance` is the sum of the squared deviations
from the arithmetic mean, divided by the number of elements. -/
theorem calculateVariance_eq (arr : List ℝ) :
    calculateVariance Math arr =
      (arr.map (fun x => (x - arr.sum / (arr.length : ℝ)) ^ 2)).sum / (arr.length : ℝ) := by
  have hsum : arr.foldl (fun sum val => sum + val) 0 = arr.sum := by
    have h := foldl_add_eq_sum (fun x : ℝ => x) arr 0
    simpa using h
  have hsq : ∀ m : ℝ, arr.foldl (fun sum val => sum + Math.pow (val - m) 2) 0 =
      (arr.map (fun x => (x - m) ^ 2)).sum := by
    intro m
    have h := foldl_add_eq_sum (fun x : ℝ => Math.pow (x - m) 2) arr 0
    simpa [Math_pow_two] using h
  unfold calculateVariance
  simp only [hsum, hsq]

/-- The variance of a non-empty list is zero iff all its elements are equal. -/
theorem calculateVariance_eq_zero_iff (arr : List ℝ) (hne : arr ≠ []) :
    calculateVariance Math arr = 0 ↔ ∀ x ∈ arr, ∀ y ∈ arr, x = y := by
  have hpos : (0 : ℝ) < (arr.length : ℝ) := by
    exact_mod_cast List.length_pos.mpr hne
  rw [calculateVariance_eq, div_eq_zero_iff, or_iff_left (ne_of_gt hpos),
    sum_eq_zero_iff_of_nonneg _ (by
      intro y hy
      obtain ⟨x, -, rfl⟩ := List.mem_map.mp hy
      exact sq_nonneg _)]
  constructor
  · intro h x hx y hy
    have e1 : x - arr.sum / (arr.length : ℝ) = 0 :=
      pow_eq_zero_iff (two_ne_zero) |>.mp (h _ (List.mem_map.mpr ⟨x, hx, rfl⟩))
    have e2 : y - arr.sum / (arr.length : ℝ) = 0 :=
      pow_eq_zero_iff (two_ne_zero) |>.mp (h _ (List.mem_map.mpr ⟨y, hy, rfl⟩))
    linarith
  · intro h z hz
    obtain ⟨x, hx, rfl⟩ := List.mem_map.mp hz
    have hb := mean_mem_bounds arr x x hne (fun y hy => by rw [h y hy x hx]; exact ⟨le_rfl, le_rfl⟩)
    have : arr.sum / (arr.length : ℝ) = x := le_antisymm hb.2 hb.1
    rw [this, sub_self]
    norm_num

/-- The allocation schedule of a result. -/
theorem simulateRecord_allocations {α : Type} [LinearOrderedField α] [FloorRing α]
    (M : JSMath α) (tickerData : TickerRecord α) (now : String)
    (params : AnalysisParameters α) :
    (simulateRecord M tickerData now params).allocation.allocations =
      (List.range (toLength params.trading_intervals)).map (fun (i : ℕ) =>
        params.total_shares / params.trading_intervals *
          (1 + M.sin ((i : α) * M.PI / params.trading_intervals) * 0.2)) :=
  rfl

/-! ## Bounds on the allocation schedule -/

/-- An index of the schedule is below the number of intervals. -/
theorem lt_of_lt_toLength (x : ℝ) (i : ℕ) (h : i < toLength x) : (i : ℝ) < x := by
  unfold toLength at h
  have h1 : (i : ℤ) < Int.floor x := Int.lt_toNat.mp h
  have h2 : ((i : ℤ) + 1 : ℤ) ≤ Int.floor x := h1
  have h3 : (((i : ℤ) + 1 : ℤ) : ℝ) ≤ x := Int.le_floor.mp h2
  push_cast at h3
  linarith

/-- For at least one interval the schedule is not empty. -/
theorem toLength_pos (x : ℝ) (h : 1 ≤ x) : 0 < toLength x := by
  unfold toLength
  have h1 : (1 : ℤ) ≤ Int.floor x := Int.le_floor.mpr (by exact_mod_cast h)
  omega

/-- The sine of the variation lies between 0 and 1. -/
theorem sin_variation_bounds (x : ℝ) (i : ℕ) (hx : 0 < x) (hi : (i : ℝ) < x) :
    0 ≤ Real.sin ((i : ℝ) * Real.pi / x) ∧ Real.sin ((i : ℝ) * Real.pi / x) ≤ 1 := by
  refine ⟨Real.sin_nonneg_of_nonneg_of_le_pi ?_ ?_, Real.sin_le_one _⟩
  · exact div_nonneg (mul_nonneg (Nat.cast_nonneg _) Real.pi_pos.le) hx.le
  · rw [div_le_iff₀ hx]
    have := mul_le_mul_of_nonneg_right hi.le Real.pi_pos.le
    linarith

/-- Every element of the schedule lies between the base allocation and 1.2
times the base allocation. -/
theorem allocation_mem_bounds (tickerData : TickerRecord ℝ) (now : String)
    (params : AnalysisParameters ℝ) (hT : 0 < params.total_shares)
    (hx : 0 < params.trading_intervals) :
    ∀ a ∈ (simulateRecord Math tickerData now params).allocation.allocations,
      params.total_shares / params.trading_intervals ≤ a ∧
        a ≤ 1.2 * (params.total_shares / params.trading_intervals) := by
  intro a ha
  rw [simulateRecord_allocations] at ha
  obtain ⟨i, hi, rfl⟩ := List.mem_map.mp ha
  have hi2 : (i : ℝ) < params.trading_intervals :=
    lt_of_lt_toLength _ _ (List.mem_range.mp hi)
  obtain ⟨h0, h1⟩ := sin_variation_bounds params.trading_intervals i hx hi2
  have hb : 0 < params.total_shares / params.trading_intervals := div_pos hT hx
  have hs : Math.sin ((i : ℝ) * Math.PI / params.trading_intervals) =
      Real.sin ((i : ℝ) * Real.pi / params.trading_intervals) := rfl
  rw [hs]
  constructor
  · nlinarith
  · nlinarith

/-- The variance of a non-empty list with all elements between `lo` and `hi`
is at most the square of `hi - lo`. -/
theorem calculateVariance_le_sq (arr : List ℝ) (lo hi : ℝ) (hne : arr ≠ [])
    (h : ∀ x ∈ arr, lo ≤ x ∧ x ≤ hi) : calculateVariance Math arr ≤ (hi - lo) ^ 2 := by
  have hpos : (0 : ℝ) < (arr.length : ℝ) := by
    exact_mod_cast List.length_pos.mpr hne
  obtain ⟨m1, m2⟩ := mean_mem_bounds arr lo hi hne h
  rw [calculateVariance_eq, div_le_iff₀ hpos]
  have hsum := sum_le_length_mul
    (arr.map (fun x => (x - arr.sum / (arr.length : ℝ)) ^ 2)) ((hi - lo) ^ 2) (by
      intro y hy
      obtain ⟨x, hx, rfl⟩ := List.mem_map.mp hy
      obtain ⟨x1, x2⟩ := h x hx
      exact sq_le_sq' (by linarith) (by linarith))
  rw [List.length_map] at hsum
  linarith

/-! ## The display of a run -/

section Display

variable {α : Type} [LinearOrderedField α] [FloorRing α]

/-- On a non-empty list the comparison returns its cards. -/
theorem analyzeComparisonRecommendations_ok (F : JSFormat α)
    (results : List (AnalysisResult α)) (hne : results ≠ []) :
    ∃ cards, analyzeComparisonRecommendations F results = .ok cards := by
  obtain ⟨best, hbest, -⟩ := bestOf_spec results hne
  obtain ⟨worst, hworst, -⟩ := worstOf_spec results hne
  simp [analyzeComparisonRecommendations, hbest, hworst]

/-- With at most one result `displayResults` stops after the sections. -/
theorem displayResults_of_le_one (F : JSFormat α) (results : List (AnalysisResult α))
    (h : results.length ≤ 1) :
    displayResults F results =
      .ok { sections := results.map (fun result => result.ticker), recommendations := none } := by
  simp [displayResults, not_lt.mpr h]

/-- With more than one result `displayResults` reaches the comparison branch
of `generateTradingRecommendations`. -/
theorem displayResults_of_one_lt (F : JSFormat α) (results : List (AnalysisResult α))
    (h : 1 < results.length) :
    ∃ cards, analyzeComparisonRecommendations F results = .ok cards ∧
      displayResults F results =
        .ok { sections := results.map (fun result => result.ticker),
              recommendations := some { branch := .comparison, cards := cards } } := by
  have hne : results ≠ [] := by
    intro hnil
    rw [hnil] at h
    simp at h
  obtain ⟨cards, hcards⟩ := analyzeComparisonRecommendations_ok F results hne
  have h1 : ¬ results.length = 1 := by omega
  exact ⟨cards, hcards, by
    simp [displayResults, showComparisonSection, generateTradingRecommendations, h, h1, hcards]⟩

/-- Whatever the list, `displayResults` returns, and what it generated is
described by the length of the list. -/
theorem displayResults_spec (F : JSFormat α) (results : List (AnalysisResult α)) :
    ∃ d, displayResults F results = .ok d ∧
      d.sections = results.map (fun result => result.ticker) ∧
      (d.recommendations.isSome = true ↔ 1 < results.length) ∧
      (∀ run, d.recommendations = some run →
        run.branch = .comparison ∧ 1 < results.length ∧
        analyzeComparisonRecommendations F results = .ok run.cards) := by
  by_cases h : 1 < results.length
  · obtain ⟨cards, hcards, hd⟩ := displayResults_of_one_lt F results h
    refine ⟨_, hd, rfl, by simp [h], ?_⟩
    intro run hrun
    simp only [Option.some.injEq] at hrun
    subst hrun
    exact ⟨rfl, h, hcards⟩
  · refine ⟨_, displayResults_of_le_one F results (not_lt.mp h), rfl, by simp [h], ?_⟩
    intro run hrun
    cases hrun

/-- What `runAnalysis` displays comes from `displayResults`, called on the
results of `analyzeAllTickers` for the ticker `ALL` and on a one-element list
otherwise. -/
theorem runAnalysis_displayed (M : JSMath α) (F : JSFormat α)
    (data : List (Option (TickerRecord α))) (clock : String → String)
    (raw : AnalysisParameters JSNum) (params : AnalysisParameters α) (d : DisplayOutcome α)
    (h : (runAnalysis M F data clock raw params).displayed = some d) :
    (params.ticker = "ALL" ∧
        displayResults F (analyzeAllTickers M data clock params).results = .ok d) ∨
      (params.ticker ≠ "ALL" ∧ ∃ result, displayResults F [result] = .ok d) := by
  unfold runAnalysis at h
  by_cases hv : (validateParameters raw).length > 0
  · simp [hv] at h
  · by_cases ht : params.ticker = "ALL"
    · left
      refine ⟨ht, ?_⟩
      simp only [hv, if_false, ht, if_true] at h
      obtain ⟨d2, hd, -⟩ := displayResults_spec F (analyzeAllTickers M data clock params).results
      rw [hd] at h ⊢
      simp only [finishRun, Option.some.injEq] at h
      rw [h]
    · right
      refine ⟨ht, ?_⟩
      simp only [hv, if_false, ht] at h
      cases hs : analyzeSingleTicker M data (clock params.ticker) params with
      | error e => rw [hs] at h; simp at h
      | ok result =>
        rw [hs] at h
        dsimp only at h
        refine ⟨result, ?_⟩
        obtain ⟨d2, hd, -⟩ := displayResults_spec F [result]
        rw [hd] at h ⊢
        simp only [finishRun, Option.some.injEq] at h
        rw [h]

end Display

/-! ## Settled statements -/

/-- C1 (defect in the code): with the total-shares field empty, `parseInt`
yields `NaN`; both comparisons of the total-shares check are then false, so
`validateParameters` returns the empty list although `total_shares` does not lie
in `[1000, 1000000]`. -/
theorem validateParameters_accepts_nan_total_shares :
    validateParameters emptyTotalShares = [] ∧
      ¬ emptyTotalShares.total_shares.InRange 1000 1000000 ∧
      ¬ AllInRange emptyTotalShares ∧
      msgTotalShares ∉ validateParameters emptyTotalShares := by
  have h : validateParameters emptyTotalShares = [] := by
    simp [validateParameters, emptyTotalShares, JSNum.lt, JSNum.gt]
    norm_num
  refine ⟨h, ?_, ?_, ?_⟩
  · simp [emptyTotalShares, JSNum.InRange]
  · simp [AllInRange, emptyTotalShares, JSNum.InRange]
  · simp [h]

/-- C2 (defect in the code, the one of C1): with the total-shares field empty
one field is out of range and `validateParameters` returns no message, so the
number of messages is not the number of fields out of range. -/
theorem validateParameters_count_nan_total_shares :
    (validateParameters emptyTotalShares).length = 0 ∧
      outOfRangeCount emptyTotalShares = 1 := by
  constructor
  · simp [validateParameters, emptyTotalShares, JSNum.lt, JSNum.gt]
    norm_num
  · simp [outOfRangeCount, emptyTotalShares, JSNum.InRange]
    norm_num

/-- C3: when a record is found and `trading_intervals` is a natural number `n`
(in particular one of 5, ..., 20), `simulateAnalysis` returns a result whose
`allocation.allocations` has exactly `n` elements and whose
`allocation.intervals` is `trading_intervals`. -/
theorem simulateAnalysis_allocations_length {α : Type} [LinearOrderedField α] [FloorRing α]
    (M : JSMath α) (data : List (Option (TickerRecord α))) (now : String)
    (params : AnalysisParameters α) (tickerData : TickerRecord α) (n : ℕ)
    (hfind : findTicker data params.ticker = some tickerData)
    (hn : params.trading_intervals = (n : α)) :
    ∃ r, simulateAnalysis M data now params = .ok r ∧
      r.allocation.allocations.length = n ∧
      ((r.allocation.allocations.length : α) = params.trading_intervals) ∧
      r.allocation.intervals = params.trading_intervals := by
  refine ⟨_, simulateAnalysis_of_find M data now params tickerData hfind, ?_, ?_, rfl⟩
  · simp [simulateRecord, arrayFrom, toLength, hn]
  · simp [simulateRecord, arrayFrom, toLength, hn]

theorem simulateAnalysis_allocations_length_witness :
    ∃ r, simulateAnalysis Math sampleData "2025-07-29T05:56:43.000Z" defaultParams = .ok r ∧
      r.allocation.allocations.length = 10 ∧
      ((r.allocation.allocations.length : ℝ) = defaultParams.trading_intervals) ∧
      r.allocation.intervals = defaultParams.trading_intervals :=
  simulateAnalysis_allocations_length Math sampleData "2025-07-29T05:56:43.000Z" defaultParams
    crwvRecord 10
    (by simp [sampleData, defaultParams, crwvRecord, findTicker_cons_none, findTicker_cons_some])
    (by simp [defaultParams])

/-- Where the parameters are numbers and `trading_intervals ≥ 1`, so that the
schedule is not empty and `calculateVariance` divides by a positive length:
when a record is found, `simulateAnalysis` returns a result whose
`allocation_std` is the square root of its `allocation_variance`; the variance
is non-negative, so the square of `allocation_std` is the variance, and
`allocation_std` is non-negative. -/
theorem simulateAnalysis_std_eq_sqrt_variance (data : List (Option (TickerRecord ℝ)))
    (now : String) (params : AnalysisParameters ℝ) (tickerData : TickerRecord ℝ)
    (hfind : findTicker data params.ticker = some tickerData)
    (h1 : 1 ≤ params.trading_intervals) :
    ∃ r, simulateAnalysis Math data now params = .ok r ∧
      r.allocation.allocations ≠ [] ∧
      r.risk_metrics.allocation_std = Real.sqrt r.risk_metrics.allocation_variance ∧
      0 ≤ r.risk_metrics.allocation_variance ∧
      r.risk_metrics.allocation_std ^ 2 = r.risk_metrics.allocation_variance ∧
      0 ≤ r.risk_metrics.allocation_std := by
  refine ⟨_, simulateAnalysis_of_find Math data now params tickerData hfind, ?_, rfl, ?_, ?_, ?_⟩
  · rw [simulateRecord_allocations]
    have hp := toLength_pos params.trading_intervals h1
    intro hnil
    have hlen := congrArg List.length hnil
    simp only [List.length_map, List.length_range, List.length_nil] at hlen
    omega
  · exact calculateVariance_nonneg _
  · exact Real.sq_sqrt (calculateVariance_nonneg _)
  · exact Real.sqrt_nonneg _

theorem simulateAnalysis_std_eq_sqrt_variance_witness :
    ∃ r, simulateAnalysis Math sampleData "2025-07-29T05:56:43.000Z" defaultParams = .ok r ∧
      r.allocation.allocations ≠ [] ∧
      r.risk_metrics.allocation_std = Real.sqrt r.risk_metrics.allocation_variance ∧
      0 ≤ r.risk_metrics.allocation_variance ∧
      r.risk_metrics.allocation_std ^ 2 = r.risk_metrics.allocation_variance ∧
      0 ≤ r.risk_metrics.allocation_std :=
  simulateAnalysis_std_eq_sqrt_variance sampleData "2025-07-29T05:56:43.000Z" defaultParams
    crwvRecord
    (by simp [sampleData, defaultParams, crwvRecord, findTicker_cons_none, findTicker_cons_some])
    (by norm_num [defaultParams])

/-- C4 (defect in the code, the one of C1): with the total-shares field empty
the parameter set holds `total_shares = NaN`, the validator returns no message,
and `runAnalysis` goes on to `simulateAnalysis` and `displayResults` without
showing an error.  The result it stores is computed from `NaN`: in the code
`baseAllocation`, every allocation, `allocation_variance` and `allocation_std`
are then `NaN`, which the number type of the pipeline cannot hold. -/
theorem runAnalysis_accepts_nan_total_shares {α : Type} [LinearOrderedField α] [FloorRing α]
    (M : JSMath α) (F : JSFormat α) (data : List (Option (TickerRecord α)))
    (clock : String → String) (params : AnalysisParameters α) (tickerData : TickerRecord α)
    (hticker : params.ticker = "CRWV")
    (hfind : findTicker data "CRWV" = some tickerData) :
    emptyTotalShares.total_shares = .nan ∧
      ¬ emptyTotalShares.total_shares.InRange 1000 1000000 ∧
      validateParameters emptyTotalShares = [] ∧
      (runAnalysis M F data clock emptyTotalShares params).shown = [] ∧
      (runAnalysis M F data clock emptyTotalShares params).currentResults =
        some [simulateRecord M tickerData (clock "CRWV") params] ∧
      (runAnalysis M F data clock emptyTotalShares params).displayed =
        some { sections := ["CRWV"], recommendations := none } := by
  have hsim : analyzeSingleTicker M data (clock "CRWV") params =
      .ok (simulateRecord M tickerData (clock "CRWV") params) := by
    unfold analyzeSingleTicker
    exact simulateAnalysis_of_find M data (clock "CRWV") params tickerData (by rw [hticker]; exact hfind)
  have hdisp : displayResults F [simulateRecord M tickerData (clock "CRWV") params] =
      .ok { sections := ["CRWV"], recommendations := none } := by
    rw [displayResults_of_le_one F _ (by simp)]
    simp [simulateRecord, hticker]
  have hrun : runAnalysis M F data clock emptyTotalShares params =
      { displayed := some { sections := ["CRWV"], recommendations := none },
        currentResults := some [simulateRecord M tickerData (clock "CRWV") params],
        shown := [] } := by
    unfold runAnalysis
    simp only [validateParameters_emptyTotalShares, List.length_nil, gt_iff_lt, lt_self_iff_false,
      if_false, hticker]
    rw [if_neg (by decide), hsim]
    simp only [hdisp, finishRun]
  refine ⟨rfl, ?_, validateParameters_emptyTotalShares, ?_, ?_, ?_⟩
  · simp [emptyTotalShares, JSNum.InRange]
  · rw [hrun]
  · rw [hrun]
  · rw [hrun]

theorem runAnalysis_accepts_nan_total_shares_witness :
    validateParameters emptyTotalShares = [] ∧
      (runAnalysis Math realFormat sampleData (fun _ => "2025-07-29T05:56:43.000Z")
        emptyTotalShares defaultParams).shown = [] ∧
      (runAnalysis Math realFormat sampleData (fun _ => "2025-07-29T05:56:43.000Z")
        emptyTotalShares defaultParams).displayed =
          some { sections := ["CRWV"], recommendations := none } := by
  obtain ⟨-, -, hv, hs, -, hd⟩ :=
    runAnalysis_accepts_nan_total_shares Math realFormat sampleData
      (fun _ => "2025-07-29T05:56:43.000Z") defaultParams crwvRecord rfl
      (by simp [sampleData, crwvRecord, findTicker_cons_none, findTicker_cons_some])
  exact ⟨hv, hs, hd⟩

/-- C6: when a record is found and the parameters hold the baseline values
`sample_size = 1000`, `order_size_points = 20`, `book_depth_pct = 50`, the
`slippage_data` of the result of `simulateAnalysis` is the `slippage_data` of
the record: same observations, same order, same values. -/
theorem simulateAnalysis_baseline_slippage {α : Type} [LinearOrderedField α] [FloorRing α]
    (M : JSMath α) (data : List (Option (TickerRecord α))) (now : String)
    (params : AnalysisParameters α) (tickerData : TickerRecord α)
    (hfind : findTicker data params.ticker = some tickerData)
    (hsample : params.sample_size = 1000) (hpoints : params.order_size_points = 20)
    (hdepth : params.book_depth_pct = 50) :
    ∃ r, simulateAnalysis M data now params = .ok r ∧
      r.slippage_data = tickerData.slippage_data := by
  refine ⟨_, simulateAnalysis_of_find M data now params tickerData hfind, ?_⟩
  rw [simulateRecord_slippage_data, hsample, hpoints, hdepth]
  have h1 : (1000 : α) / 1000 = 1 := by norm_num
  have h2 : (20 : α) / 20 = 1 := by norm_num
  have h3 : (50 : α) / 50 = 1 := by norm_num
  simp only [h1, h2, h3, mul_one, sub_self, zero_mul, add_zero, Int.floor_natCast,
    slice0_length]
  exact List.map_id _

theorem simulateAnalysis_baseline_slippage_witness :
    ∃ r, simulateAnalysis Math sampleData "2025-07-29T05:56:43.000Z" defaultParams = .ok r ∧
      r.slippage_data = crwvRecord.slippage_data :=
  simulateAnalysis_baseline_slippage Math sampleData "2025-07-29T05:56:43.000Z" defaultParams
    crwvRecord
    (by simp [sampleData, defaultParams, crwvRecord, findTicker_cons_none, findTicker_cons_some])
    rfl rfl rfl

/-- C7: `simulateAnalysis` fails with `No data found for ticker T` iff no
non-null record of the dataset has the ticker `T` of the parameters; that is
its only error; `null` placeholders before the record are passed over, and when
a record with the ticker exists the result is computed from the first such
record in dataset order. -/
theorem simulateAnalysis_not_found_iff {α : Type} [LinearOrderedField α] [FloorRing α]
    (M : JSMath α) (data : List (Option (TickerRecord α))) (now : String)
    (params : AnalysisParameters α) :
    (simulateAnalysis M data now params = .error ("No data found for ticker " ++ params.ticker)
        ↔ ∀ d, some d ∈ data → d.ticker ≠ params.ticker) ∧
      (∀ e, simulateAnalysis M data now params = .error e →
        e = "No data found for ticker " ++ params.ticker) ∧
      (∀ before d after, data = before ++ some d :: after → d.ticker = params.ticker →
        (∀ e, some e ∈ before → e.ticker ≠ params.ticker) →
        simulateAnalysis M data now params = .ok (simulateRecord M d now params)) ∧
      ((∃ d, some d ∈ data ∧ d.ticker = params.ticker) →
        ∃ r, simulateAnalysis M data now params = .ok r) := by
  refine ⟨?_, ?_, ?_, ?_⟩
  · rw [← findTicker_eq_none_iff]
    cases h : findTicker data params.ticker with
    | none => simp [simulateAnalysis, h, notFoundMessage]
    | some d => simp [simulateAnalysis, h]
  · intro e he
    cases h : findTicker data params.ticker with
    | none =>
      simp only [simulateAnalysis, h, notFoundMessage, Except.error.injEq] at he
      exact he.symm
    | some d => simp [simulateAnalysis, h] at he
  · intro before d after hdata ht hb
    exact simulateAnalysis_of_find M data now params d
      ((findTicker_eq_some_iff data params.ticker d).mpr ⟨before, after, hdata, ht, hb⟩)
  · rintro ⟨d, hd, ht⟩
    cases h : findTicker data params.ticker with
    | none => exact absurd ht ((findTicker_eq_none_iff data params.ticker).mp h d hd)
    | some c => exact ⟨_, simulateAnalysis_of_find M data now params c h⟩

/-- C8: `analyzeAllTickers` always returns.  The tickers of its results are
those of `CRWV`, `FROG`, `SOUN` for which the dataset holds a non-null record,
one each and in that order, and each result is computed from the first record
of its ticker in the dataset; it shows one error for each ticker without a
record, in the same order; results and errors together are three, and with
exactly one ticker missing there are two results and one error. -/
theorem analyzeAllTickers_outcome {α : Type} [LinearOrderedField α] [FloorRing α]
    (M : JSMath α) (data : List (Option (TickerRecord α))) (clock : String → String)
    (params : AnalysisParameters α) :
    (analyzeAllTickers M data clock params).results.map (fun r => r.ticker) =
        ["CRWV", "FROG", "SOUN"].filter
          (fun t => decide (HasRecord data t)) ∧
      (∀ r ∈ (analyzeAllTickers M data clock params).results,
        ∃ before d after, data = before ++ some d :: after ∧ d.ticker = r.ticker ∧
          (∀ e, some e ∈ before → e.ticker ≠ r.ticker) ∧
          r = simulateRecord M d (clock r.ticker) { params with ticker := r.ticker }) ∧
      (analyzeAllTickers M data clock params).shown =
        (["CRWV", "FROG", "SOUN"].filter
          (fun t => decide (¬ HasRecord data t))).map (fun t =>
          "Failed to analyze " ++ t ++ ": " ++ ("No data found for ticker " ++ t)) ∧
      (analyzeAllTickers M data clock params).results.length +
        (analyzeAllTickers M data clock params).shown.length = 3 ∧
      ((["CRWV", "FROG", "SOUN"].filter
          (fun t => decide (¬ HasRecord data t))).length = 1 →
        (analyzeAllTickers M data clock params).results.length = 2 ∧
        (analyzeAllTickers M data clock params).shown.length = 1) := by
  obtain ⟨hres, hshown⟩ := analyzeAllTickers_eq M data clock params
  have hmem : ∀ r ∈ (analyzeAllTickers M data clock params).results,
      ∃ before d after, data = before ++ some d :: after ∧ d.ticker = r.ticker ∧
        (∀ e, some e ∈ before → e.ticker ≠ r.ticker) ∧
        r = simulateRecord M d (clock r.ticker) { params with ticker := r.ticker } := by
    intro r hr
    rw [hres] at hr
    obtain ⟨t, -, ht⟩ := List.mem_filterMap.mp hr
    cases hfind : findTicker data t with
    | none => rw [hfind] at ht; cases ht
    | some d =>
      rw [hfind] at ht
      simp only [Option.map_some', Option.some.injEq] at ht
      have hrt : r.ticker = t := by rw [← ht]; rfl
      obtain ⟨before, after, hdata, hd, hb⟩ := (findTicker_eq_some_iff data t d).mp hfind
      rw [hrt]
      exact ⟨before, d, after, hdata, hd, hb, ht.symm⟩
  have key : ∀ t, HasRecord data t ↔ (findTicker data t).isSome = true :=
    hasRecord_iff_find data
  refine ⟨?_, hmem, ?_, ?_, ?_⟩ <;>
    simp only [hres, hshown, key] <;>
    cases h1 : findTicker data "CRWV" <;> cases h2 : findTicker data "FROG" <;>
    cases h3 : findTicker data "SOUN" <;>
    simp [h1, h2, h3, missingMessage, notFoundMessage, simulateRecord]

/-- C9: on a non-empty list `analyzeComparisonRecommendations` returns cards
whose first is the `success` card naming the best result; the best result is
the earliest result of minimum `total_slippage_cost` and the worst the earliest
of maximum cost.  For two results of costs 0.02 and 0.05, in either order, the
0.02 one is the best and the 0.05 one the worst, and with two different tickers
the cards are the `success` card of the first, the `warning` card of the second
and the `info` card. -/
theorem analyzeComparisonRecommendations_best_worst {α : Type} [LinearOrderedField α]
    [FloorRing α] (F : JSFormat α) (results : List (AnalysisResult α))
    (hne : results ≠ []) :
    (∃ best worst rest,
        bestOf results = some best ∧ worstOf results = some worst ∧
        analyzeComparisonRecommendations F results = .ok (bestCard F best :: rest) ∧
        (bestCard F best).type = "success" ∧
        (bestCard F best).metrics.lookup "Best Ticker" = some (.str best.ticker) ∧
        EarliestMin best results ∧ EarliestMax worst results) ∧
      (∀ r1 r2 : AnalysisResult α,
        r1.risk_metrics.total_slippage_cost = 0.02 →
        r2.risk_metrics.total_slippage_cost = 0.05 →
        bestOf [r1, r2] = some r1 ∧ worstOf [r1, r2] = some r2 ∧
        bestOf [r2, r1] = some r1 ∧ worstOf [r2, r1] = some r2 ∧
        (worstCard F r2).type = "warning" ∧
        (r2.ticker ≠ r1.ticker →
          analyzeComparisonRecommendations F [r1, r2] =
            .ok [bestCard F r1, worstCard F r2, portfolioCard F [r1, r2] r1] ∧
          analyzeComparisonRecommendations F [r2, r1] =
            .ok [bestCard F r1, worstCard F r2, portfolioCard F [r2, r1] r1])) := by
  constructor
  · obtain ⟨best, hbest, hmin⟩ := bestOf_spec results hne
    obtain ⟨worst, hworst, hmax⟩ := worstOf_spec results hne
    by_cases ht : worst.ticker ≠ best.ticker
    · exact ⟨best, worst, [worstCard F worst, portfolioCard F results best], hbest, hworst,
        by simp [analyzeComparisonRecommendations, hbest, hworst, ht], rfl, by simp [bestCard],
        hmin, hmax⟩
    · exact ⟨best, worst, [portfolioCard F results best], hbest, hworst,
        by simp [analyzeComparisonRecommendations, hbest, hworst, ht], rfl, by simp [bestCard],
        hmin, hmax⟩
  · intro r1 r2 h1 h2
    have hlt : r1.risk_metrics.total_slippage_cost < r2.risk_metrics.total_slippage_cost := by
      rw [h1, h2]; norm_num
    have hb1 : bestOf [r1, r2] = some r1 := by
      simp [bestOf, reduce1, not_lt.mpr (le_of_lt hlt)]
    have hw1 : worstOf [r1, r2] = some r2 := by
      simp [worstOf, reduce1, hlt]
    have hb2 : bestOf [r2, r1] = some r1 := by
      simp [bestOf, reduce1, hlt]
    have hw2 : worstOf [r2, r1] = some r2 := by
      simp [worstOf, reduce1, not_lt.mpr (le_of_lt hlt)]
    refine ⟨hb1, hw1, hb2, hw2, rfl, ?_⟩
    intro ht
    constructor
    · simp [analyzeComparisonRecommendations, hb1, hw1, ht]
    · simp [analyzeComparisonRecommendations, hb2, hw2, ht]

theorem analyzeComparisonRecommendations_best_worst_witness :
    bestOf [resultWithCost "CRWV" (1 / 20), resultWithCost "SOUN" (1 / 50)]
        = some (resultWithCost "SOUN" (1 / 50)) ∧
      worstOf [resultWithCost "CRWV" (1 / 20), resultWithCost "SOUN" (1 / 50)]
        = some (resultWithCost "CRWV" (1 / 20)) ∧
      analyzeComparisonRecommendations sampleFormat
          [resultWithCost "SOUN" (1 / 50), resultWithCost "CRWV" (1 / 20)] =
        .ok [bestCard sampleFormat (resultWithCost "SOUN" (1 / 50)),
          worstCard sampleFormat (resultWithCost "CRWV" (1 / 20)),
          portfolioCard sampleFormat
            [resultWithCost "SOUN" (1 / 50), resultWithCost "CRWV" (1 / 20)]
            (resultWithCost "SOUN" (1 / 50))] := by
  have h := (analyzeComparisonRecommendations_best_worst sampleFormat
    [resultWithCost "SOUN" (1 / 50), resultWithCost "CRWV" (1 / 20)] (by simp)).2
    (resultWithCost "SOUN" (1 / 50)) (resultWithCost "CRWV" (1 / 20))
    (by norm_num [resultWithCost]) (by norm_num [resultWithCost])
  exact ⟨h.2.2.1, h.2.2.2.1, (h.2.2.2.2.2 (by simp [resultWithCost])).1⟩

/-- C10: on a non-empty list `analyzeComparisonRecommendations` returns its
cards; with `best` the earliest result of minimum `total_slippage_cost` and
`worst` the earliest result of maximum cost, the cards hold a `warning` card
iff the ticker of `worst` differs from the ticker of `best`; then the cards are
the `success` card of `best`, the `warning` card of `worst` and the `info`
card, and otherwise the `success` card and the `info` card.  When all results
have the same cost, `best` and `worst` are both the first result and the cards
are exactly a `success` card followed by an `info` card. -/
theorem analyzeComparisonRecommendations_warning_iff {α : Type} [LinearOrderedField α]
    [FloorRing α] (F : JSFormat α) (results : List (AnalysisResult α))
    (hne : results ≠ []) :
    ∃ best worst recs,
      bestOf results = some best ∧ worstOf results = some worst ∧
      EarliestMin best results ∧ EarliestMax worst results ∧
      analyzeComparisonRecommendations F results = .ok recs ∧
      ((∃ c ∈ recs, c.type = "warning") ↔ worst.ticker ≠ best.ticker) ∧
      (worst.ticker ≠ best.ticker →
        recs = [bestCard F best, worstCard F worst, portfolioCard F results best] ∧
        recs.map (fun c => c.type) = ["success", "warning", "info"] ∧
        (worstCard F worst).metrics.lookup "Risky Ticker" = some (.str worst.ticker)) ∧
      (worst.ticker = best.ticker →
        recs = [bestCard F best, portfolioCard F results best] ∧
        recs.map (fun c => c.type) = ["success", "info"]) ∧
      ((∀ a ∈ results, ∀ b ∈ results,
          a.risk_metrics.total_slippage_cost = b.risk_metrics.total_slippage_cost) →
        results.head? = some best ∧ results.head? = some worst ∧
        recs = [bestCard F best, portfolioCard F results best] ∧
        recs.map (fun c => c.type) = ["success", "info"]) := by
  obtain ⟨best, hbest, hmin⟩ := bestOf_spec results hne
  obtain ⟨worst, hworst, hmax⟩ := worstOf_spec results hne
  by_cases ht : worst.ticker ≠ best.ticker
  · refine ⟨best, worst, [bestCard F best, worstCard F worst, portfolioCard F results best],
      hbest, hworst, hmin, hmax,
      by simp [analyzeComparisonRecommendations, hbest, hworst, ht], ?_,
      fun _ => ⟨rfl, rfl, by simp [worstCard]⟩, fun h => absurd h ht, ?_⟩
    · simp [ht, bestCard, worstCard, portfolioCard]
    · intro heq
      have h1 := earliestMin_eq_head hmin heq
      have h2 := earliestMax_eq_head hmax heq
      rw [h1] at h2
      exact absurd (by rw [Option.some.inj h2]) ht
  · have ht2 : worst.ticker = best.ticker := not_not.mp ht
    refine ⟨best, worst, [bestCard F best, portfolioCard F results best],
      hbest, hworst, hmin, hmax,
      by simp [analyzeComparisonRecommendations, hbest, hworst, ht2], ?_,
      fun h => absurd ht2 h, fun _ => ⟨rfl, rfl⟩, ?_⟩
    · simp [ht2, bestCard, portfolioCard]
    · intro heq
      exact ⟨earliestMin_eq_head hmin heq, earliestMax_eq_head hmax heq, rfl, rfl⟩

theorem analyzeComparisonRecommendations_warning_iff_witness :
    (∃ recs,
        analyzeComparisonRecommendations sampleFormat
          [resultWithCost "CRWV" (1 / 50), resultWithCost "SOUN" (1 / 20)] = .ok recs ∧
        recs = [bestCard sampleFormat (resultWithCost "CRWV" (1 / 50)),
          worstCard sampleFormat (resultWithCost "SOUN" (1 / 20)),
          portfolioCard sampleFormat
            [resultWithCost "CRWV" (1 / 50), resultWithCost "SOUN" (1 / 20)]
            (resultWithCost "CRWV" (1 / 50))] ∧
        recs.map (fun c => c.type) = ["success", "warning", "info"]) ∧
      (∃ recs,
        analyzeComparisonRecommendations sampleFormat
          [resultWithCost "CRWV" (1 / 50), resultWithCost "SOUN" (1 / 50)] = .ok recs ∧
        recs.map (fun c => c.type) = ["success", "info"]) := by
  constructor
  · obtain ⟨best, worst, recs, hb, hw, -, -, hr, -, hdiff, -, -⟩ :=
      analyzeComparisonRecommendations_warning_iff sampleFormat
        [resultWithCost "CRWV" (1 / 50), resultWithCost "SOUN" (1 / 20)] (by simp)
    have hb2 : bestOf [resultWithCost "CRWV" (1 / 50), resultWithCost "SOUN" (1 / 20)] =
        some (resultWithCost "CRWV" (1 / 50)) := by
      simp only [bestOf, reduce1, List.foldl_cons, List.foldl_nil, resultWithCost]
      norm_num
    have hw2 : worstOf [resultWithCost "CRWV" (1 / 50), resultWithCost "SOUN" (1 / 20)] =
        some (resultWithCost "SOUN" (1 / 20)) := by
      simp only [worstOf, reduce1, List.foldl_cons, List.foldl_nil, resultWithCost]
      norm_num
    have eb : best = resultWithCost "CRWV" (1 / 50) := Option.some.inj (hb.symm.trans hb2)
    have ew : worst = resultWithCost "SOUN" (1 / 20) := Option.some.inj (hw.symm.trans hw2)
    subst eb ew
    obtain ⟨h1, h2, -⟩ := hdiff (by simp [resultWithCost])
    exact ⟨recs, hr, h1, h2⟩
  · obtain ⟨best, worst, recs, -, -, -, -, hr, -, -, -, hall⟩ :=
      analyzeComparisonRecommendations_warning_iff sampleFormat
        [resultWithCost "CRWV" (1 / 50), resultWithCost "SOUN" (1 / 50)] (by simp)
    refine ⟨recs, hr, (hall ?_).2.2.2⟩
    intro a ha b hb
    simp only [List.mem_cons, List.mem_singleton, List.not_mem_nil, or_false] at ha hb
    rcases ha with rfl | rfl <;> rcases hb with rfl | rfl <;> rfl

/-- C11: the first record of `analyzeSingleTickerRecommendations` is the
`warning` card "High Slippage Cost Detected" when `total_slippage_cost > 0.01`
and the `success` card "Optimal Slippage Cost" otherwise; the comparison is
strict, so a cost of exactly 0.01 gives the `success` card. -/
theorem analyzeSingleTickerRecommendations_first {α : Type} [LinearOrderedField α]
    [FloorRing α] (F : JSFormat α) (result : AnalysisResult α) :
    (∃ first rest, analyzeSingleTickerRecommendations F result = first :: rest ∧
        first = (if result.risk_metrics.total_slippage_cost > 0.01
          then highCostCard F result else optimalCostCard F result) ∧
        first.type = (if result.risk_metrics.total_slippage_cost > 0.01
          then "warning" else "success")) ∧
      ((highCostCard F result).type = "warning" ∧
        (highCostCard F result).title = "High Slippage Cost Detected") ∧
      ((optimalCostCard F result).type = "success" ∧
        (optimalCostCard F result).title = "Optimal Slippage Cost") ∧
      (result.risk_metrics.total_slippage_cost = 0.01 →
        (analyzeSingleTickerRecommendations F result).head? =
          some (optimalCostCard F result)) := by
  refine ⟨?_, ⟨rfl, rfl⟩, ⟨rfl, rfl⟩, ?_⟩
  · by_cases hc : result.risk_metrics.total_slippage_cost > 0.01
    · by_cases hv : allocationCV result > 0.3
      · exact ⟨highCostCard F result, [varianceCard F result, strategyCard F result],
          by simp [analyzeSingleTickerRecommendations, hc, hv], by simp [hc],
          by simp [hc, highCostCard]⟩
      · exact ⟨highCostCard F result, [strategyCard F result],
          by simp [analyzeSingleTickerRecommendations, hc, hv], by simp [hc],
          by simp [hc, highCostCard]⟩
    · by_cases hv : allocationCV result > 0.3
      · exact ⟨optimalCostCard F result, [varianceCard F result, strategyCard F result],
          by simp [analyzeSingleTickerRecommendations, hc, hv], by simp [hc],
          by simp [hc, optimalCostCard]⟩
      · exact ⟨optimalCostCard F result, [strategyCard F result],
          by simp [analyzeSingleTickerRecommendations, hc, hv], by simp [hc],
          by simp [hc, optimalCostCard]⟩
  · intro h
    have hc : ¬ result.risk_metrics.total_slippage_cost > 0.01 := by
      rw [h]; exact lt_irrefl _
    by_cases hv : allocationCV result > 0.3 <;>
      simp [analyzeSingleTickerRecommendations, hc, hv]

/-- C12: for a result whose `total_shares` and `intervals` are not zero (so
that the divisor `total_shares / intervals` of the coefficient of variation is
not zero and the quotient is the one JavaScript computes), after its first
record `analyzeSingleTickerRecommendations` returns the `warning` card "High
Allocation Variance" exactly when
`CV = allocation_std / (total_shares / intervals)` is greater than 0.3, and then
the `info` card "Trading Strategy Recommendation"; there are two or three
records and the last one is the `info` card. -/
theorem analyzeSingleTickerRecommendations_rest {α : Type} [LinearOrderedField α]
    [FloorRing α] (F : JSFormat α) (result : AnalysisResult α)
    (hshares : result.allocation.total_shares ≠ 0)
    (hintervals : result.allocation.intervals ≠ 0) :
    result.allocation.total_shares / result.allocation.intervals ≠ 0 ∧
      (analyzeSingleTickerRecommendations F result).tail =
        (if result.risk_metrics.allocation_std /
              (result.allocation.total_shares / result.allocation.intervals) > 0.3
          then [varianceCard F result] else []) ++ [strategyCard F result] ∧
      ((varianceCard F result).type = "warning" ∧
        (varianceCard F result).title = "High Allocation Variance") ∧
      ((strategyCard F result).type = "info" ∧
        (strategyCard F result).title = "Trading Strategy Recommendation") ∧
      ((∃ c ∈ (analyzeSingleTickerRecommendations F result).tail,
          c.title = "High Allocation Variance") ↔
        result.risk_metrics.allocation_std /
          (result.allocation.total_shares / result.allocation.intervals) > 0.3) ∧
      ((analyzeSingleTickerRecommendations F result).length = 2 ∨
        (analyzeSingleTickerRecommendations F result).length = 3) ∧
      ((analyzeSingleTickerRecommendations F result).length = 3 ↔
        result.risk_metrics.allocation_std /
          (result.allocation.total_shares / result.allocation.intervals) > 0.3) ∧
      (analyzeSingleTickerRecommendations F result).getLast? =
        some (strategyCard F result) := by
  refine ⟨div_ne_zero hshares hintervals, ?_⟩
  have hcv : result.risk_metrics.allocation_std /
      (result.allocation.total_shares / result.allocation.intervals) = allocationCV result :=
    rfl
  rw [hcv]
  by_cases hc : result.risk_metrics.total_slippage_cost > 0.01 <;>
    by_cases hv : allocationCV result > 0.3 <;>
    simp [analyzeSingleTickerRecommendations, hc, hv, varianceCard, strategyCard]

theorem analyzeSingleTickerRecommendations_rest_witness :
    (analyzeSingleTickerRecommendations sampleFormat (resultWithCost "CRWV" (1 / 50))).tail =
        [strategyCard sampleFormat (resultWithCost "CRWV" (1 / 50))] ∧
      (analyzeSingleTickerRecommendations sampleFormat
        (resultWithCost "CRWV" (1 / 50))).length = 2 := by
  obtain ⟨-, htail, -, -, -, hor, hlen, -⟩ :=
    analyzeSingleTickerRecommendations_rest sampleFormat (resultWithCost "CRWV" (1 / 50))
      (by norm_num [resultWithCost]) (by norm_num [resultWithCost])
  have hcv : ¬ ((resultWithCost "CRWV" (1 / 50)).risk_metrics.allocation_std /
      ((resultWithCost "CRWV" (1 / 50)).allocation.total_shares /
        (resultWithCost "CRWV" (1 / 50)).allocation.intervals) > 0.3) := by
    norm_num [resultWithCost]
  rw [if_neg hcv] at htail
  refine ⟨htail, ?_⟩
  rcases hor with h2 | h3
  · exact h2
  · exact absurd (hlen.mp h3) hcv

/-- C13: when a record is found and `trading_intervals` is a natural number
`n`, for every index `i < n` (so `n ≥ 1`) the element `i` of
`allocation.allocations` in the result of `simulateAnalysis` is
`(total_shares / n) * (1 + 0.2 * sin(i * π / n))`. -/
theorem simulateAnalysis_allocation_formula {α : Type} [LinearOrderedField α] [FloorRing α]
    (M : JSMath α) (data : List (Option (TickerRecord α))) (now : String)
    (params : AnalysisParameters α) (tickerData : TickerRecord α) (n i : ℕ)
    (hfind : findTicker data params.ticker = some tickerData)
    (hn : params.trading_intervals = (n : α)) (hi : i < n) :
    ∃ r, simulateAnalysis M data now params = .ok r ∧
      r.allocation.allocations[i]? =
        some (params.total_shares / (n : α) * (1 + 0.2 * M.sin ((i : α) * M.PI / (n : α)))) := by
  refine ⟨_, simulateAnalysis_of_find M data now params tickerData hfind, ?_⟩
  rw [simulateRecord_allocations, hn]
  simp only [toLength, Int.floor_natCast, Int.toNat_ofNat, List.getElem?_map,
    List.getElem?_range hi, Option.map_some']
  rw [mul_comm (M.sin _) 0.2]

theorem simulateAnalysis_allocation_formula_witness :
    ∃ r, simulateAnalysis Math sampleData "2025-07-29T05:56:43.000Z" defaultParams = .ok r ∧
      r.allocation.allocations[3]? =
        some (defaultParams.total_shares / ((10 : ℕ) : ℝ) *
          (1 + 0.2 * Math.sin (((3 : ℕ) : ℝ) * Math.PI / ((10 : ℕ) : ℝ)))) :=
  simulateAnalysis_allocation_formula Math sampleData "2025-07-29T05:56:43.000Z" defaultParams
    crwvRecord 10 3
    (by simp [sampleData, defaultParams, crwvRecord, findTicker_cons_none, findTicker_cons_some])
    (by simp [defaultParams]) (by norm_num)

/-- C14: for a non-empty list `calculateVariance` is the population variance,
the sum of the squared deviations from the arithmetic mean divided by the
number `n` of elements; it is non-negative, and zero exactly when all elements
are equal; and `allocation_variance` of a result of `simulateAnalysis` is
`calculateVariance` of its allocation schedule. -/
theorem calculateVariance_population (arr : List ℝ) (hne : arr ≠ []) :
    calculateVariance Math arr =
        (arr.map (fun x => (x - arr.sum / (arr.length : ℝ)) ^ 2)).sum / (arr.length : ℝ) ∧
      0 ≤ calculateVariance Math arr ∧
      (calculateVariance Math arr = 0 ↔ ∀ x ∈ arr, ∀ y ∈ arr, x = y) ∧
      (∀ (data : List (Option (TickerRecord ℝ))) (now : String)
          (params : AnalysisParameters ℝ) (tickerData : TickerRecord ℝ),
        findTicker data params.ticker = some tickerData →
        ∃ r, simulateAnalysis Math data now params = .ok r ∧
          r.risk_metrics.allocation_variance = calculateVariance Math r.allocation.allocations) :=
  ⟨calculateVariance_eq arr, calculateVariance_nonneg arr,
    calculateVariance_eq_zero_iff arr hne,
    fun data now params tickerData hfind =>
      ⟨_, simulateAnalysis_of_find Math data now params tickerData hfind, rfl⟩⟩

theorem calculateVariance_population_witness :
    calculateVariance Math [1, 3] = 1 := by
  have h := (calculateVariance_population [1, 3] (by simp)).1
  rw [h]
  norm_num

/-- C15 as stated fails: the object `analysis_params` written by
`simulateAnalysis` has no property `total_shares` and no property
`trading_intervals`. -/
theorem simulateAnalysis_snapshot_lacks_shares_and_intervals :
    ∃ r, simulateAnalysis Math sampleData "2025-07-29T05:56:43.000Z" defaultParams = .ok r ∧
      r.analysis_params.get "total_shares" = none ∧
      r.analysis_params.get "trading_intervals" = none ∧
      r.analysis_params.get "total_shares" ≠ some (.num defaultParams.total_shares) ∧
      r.analysis_params.get "trading_intervals" ≠
        some (.num defaultParams.trading_intervals) := by
  have hfind : findTicker sampleData defaultParams.ticker = some crwvRecord := by
    simp [sampleData, defaultParams, crwvRecord, findTicker_cons_none, findTicker_cons_some]
  refine ⟨_, simulateAnalysis_of_find Math _ _ _ _ hfind, ?_, ?_, ?_, ?_⟩ <;>
    simp [AnalysisSnapshot.get, AnalysisSnapshot.entries, List.lookup]

/-- C15, amended: when a record is found, the `analysis_params` of the result
of `simulateAnalysis` has exactly the properties `sample_size`,
`order_size_points`, `book_depth_pct`, each with the value supplied in the
parameters, and `timestamp`, the time of generation; the supplied
`total_shares` and `trading_intervals` are carried by `allocation.total_shares`
and `allocation.intervals`. -/
theorem simulateAnalysis_snapshot {α : Type} [LinearOrderedField α] [FloorRing α]
    (M : JSMath α) (data : List (Option (TickerRecord α))) (now : String)
    (params : AnalysisParameters α) (tickerData : TickerRecord α)
    (hfind : findTicker data params.ticker = some tickerData) :
    ∃ r, simulateAnalysis M data now params = .ok r ∧
      r.analysis_params.entries =
        [("sample_size", .num params.sample_size),
         ("order_size_points", .num params.order_size_points),
         ("book_depth_pct", .num params.book_depth_pct),
         ("timestamp", .str now)] ∧
      r.analysis_params.get "sample_size" = some (.num params.sample_size) ∧
      r.analysis_params.get "order_size_points" = some (.num params.order_size_points) ∧
      r.analysis_params.get "book_depth_pct" = some (.num params.book_depth_pct) ∧
      r.analysis_params.get "timestamp" = some (.str now) ∧
      r.allocation.total_shares = params.total_shares ∧
      r.allocation.intervals = params.trading_intervals := by
  refine ⟨_, simulateAnalysis_of_find M data now params tickerData hfind, rfl, ?_, ?_, ?_, ?_,
    rfl, rfl⟩ <;>
    simp [AnalysisSnapshot.get, AnalysisSnapshot.entries, List.lookup, simulateRecord]

theorem simulateAnalysis_snapshot_witness :
    ∃ r, simulateAnalysis Math sampleData "2025-07-29T05:56:43.000Z" defaultParams = .ok r ∧
      r.analysis_params.get "sample_size" = some (.num 1000) ∧
      r.allocation.total_shares = 50000 ∧
      r.allocation.intervals = 10 := by
  obtain ⟨r, hr, -, h1, -, -, -, h2, h3⟩ :=
    simulateAnalysis_snapshot Math sampleData "2025-07-29T05:56:43.000Z" defaultParams
      crwvRecord
      (by simp [sampleData, defaultParams, crwvRecord, findTicker_cons_none,
        findTicker_cons_some])
  exact ⟨r, hr, h1, h2, h3⟩

/-- C16: when a record is found, `total_shares > 0` and `trading_intervals` is a
natural number `n ≥ 2` (in particular one of 5, ..., 20), every element of the
schedule of the result lies in `[total_shares / n, 1.2 * total_shares / n]`,
the element at index 0 is `total_shares / n`, and the sum of the schedule is
greater than `total_shares`. -/
theorem simulateAnalysis_schedule_over_allocates (data : List (Option (TickerRecord ℝ)))
    (now : String) (params : AnalysisParameters ℝ) (tickerData : TickerRecord ℝ) (n : ℕ)
    (hfind : findTicker data params.ticker = some tickerData)
    (hT : 0 < params.total_shares)
    (hn : params.trading_intervals = (n : ℝ)) (h2 : 2 ≤ n) :
    ∃ r, simulateAnalysis Math data now params = .ok r ∧
      (∀ a ∈ r.allocation.allocations,
        params.total_shares / (n : ℝ) ≤ a ∧ a ≤ 1.2 * params.total_shares / (n : ℝ)) ∧
      r.allocation.allocations[0]? = some (params.total_shares / (n : ℝ)) ∧
      params.total_shares < r.allocation.allocations.sum ∧
      r.allocation.allocations.sum ≠ params.total_shares := by
  have hnpos : (0 : ℝ) < (n : ℝ) := by exact_mod_cast (by omega : 0 < n)
  have hx : 0 < params.trading_intervals := by rw [hn]; exact hnpos
  have hb : 0 < params.total_shares / (n : ℝ) := div_pos hT hnpos
  have hbounds := allocation_mem_bounds tickerData now params hT hx
  rw [hn] at hbounds
  have hlen : (simulateRecord Math tickerData now params).allocation.allocations.length = n := by
    rw [simulateRecord_allocations, hn]
    simp [toLength]
  have hzero : (simulateRecord Math tickerData now params).allocation.allocations[0]? =
      some (params.total_shares / (n : ℝ)) := by
    rw [simulateRecord_allocations, hn]
    simp only [toLength, Int.floor_natCast, Int.toNat_ofNat, List.getElem?_map,
      List.getElem?_range (by omega : 0 < n), Option.map_some']
    have hs : Math.sin (((0 : ℕ) : ℝ) * Math.PI / (n : ℝ)) = 0 := by
      show Real.sin (((0 : ℕ) : ℝ) * Real.pi / (n : ℝ)) = 0
      simp
    rw [hs]
    norm_num
  have hone : params.total_shares / (n : ℝ) *
      (1 + Math.sin (((1 : ℕ) : ℝ) * Math.PI / (n : ℝ)) * 0.2) ∈
      (simulateRecord Math tickerData now params).allocation.allocations := by
    rw [simulateRecord_allocations, hn]
    refine List.mem_map.mpr ⟨1, List.mem_range.mpr ?_, rfl⟩
    simp only [toLength, Int.floor_natCast, Int.toNat_ofNat]
    omega
  have hsin : 0 < Math.sin (((1 : ℕ) : ℝ) * Math.PI / (n : ℝ)) := by
    show 0 < Real.sin (((1 : ℕ) : ℝ) * Real.pi / (n : ℝ))
    apply Real.sin_pos_of_pos_of_lt_pi
    · exact div_pos (by simpa using Real.pi_pos) hnpos
    · rw [div_lt_iff₀ hnpos]
      have h2r : (2 : ℝ) ≤ (n : ℝ) := by exact_mod_cast h2
      have := Real.pi_pos
      simp only [Nat.cast_one, one_mul]
      nlinarith
  have hsum := length_mul_lt_sum
    (simulateRecord Math tickerData now params).allocation.allocations
    (params.total_shares / (n : ℝ)) (fun a ha => (hbounds a ha).1)
    ⟨_, hone, by nlinarith⟩
  rw [hlen, mul_div_cancel₀ _ (ne_of_gt hnpos)] at hsum
  refine ⟨_, simulateAnalysis_of_find Math data now params tickerData hfind, ?_, hzero, hsum,
    ne_of_gt hsum⟩
  intro a ha
  obtain ⟨h1, h3⟩ := hbounds a ha
  refine ⟨h1, ?_⟩
  rw [mul_div_assoc]
  exact h3

theorem simulateAnalysis_schedule_over_allocates_witness :
    ∃ r, simulateAnalysis Math sampleData "2025-07-29T05:56:43.000Z" defaultParams = .ok r ∧
      (∀ a ∈ r.allocation.allocations,
        defaultParams.total_shares / ((10 : ℕ) : ℝ) ≤ a ∧
          a ≤ 1.2 * defaultParams.total_shares / ((10 : ℕ) : ℝ)) ∧
      r.allocation.allocations[0]? = some (defaultParams.total_shares / ((10 : ℕ) : ℝ)) ∧
      defaultParams.total_shares < r.allocation.allocations.sum ∧
      r.allocation.allocations.sum ≠ defaultParams.total_shares :=
  simulateAnalysis_schedule_over_allocates sampleData "2025-07-29T05:56:43.000Z" defaultParams
    crwvRecord 10
    (by simp [sampleData, defaultParams, crwvRecord, findTicker_cons_none, findTicker_cons_some])
    (by norm_num [defaultParams]) (by simp [defaultParams]) (by norm_num)

/-- C17: when a record is found, `total_shares > 0` and `trading_intervals ≥ 1`,
the coefficient of variation `allocation_std / (total_shares / intervals)` of
the result of `simulateAnalysis` is at most 0.2, hence not above 0.3, and
`analyzeSingleTickerRecommendations` applied to the result returns exactly two
records, none of them the "High Allocation Variance" warning. -/
theorem simulateAnalysis_cv_le (data : List (Option (TickerRecord ℝ)))
    (now : String) (params : AnalysisParameters ℝ) (tickerData : TickerRecord ℝ)
    (hfind : findTicker data params.ticker = some tickerData)
    (hT : 0 < params.total_shares) (h1 : 1 ≤ params.trading_intervals) :
    ∃ r, simulateAnalysis Math data now params = .ok r ∧
      r.risk_metrics.allocation_std / (r.allocation.total_shares / r.allocation.intervals)
        ≤ 0.2 ∧
      ¬ (r.risk_metrics.allocation_std / (r.allocation.total_shares / r.allocation.intervals)
        > 0.3) ∧
      ∀ F : JSFormat ℝ,
        (analyzeSingleTickerRecommendations F r).length = 2 ∧
        (∀ c ∈ analyzeSingleTickerRecommendations F r, c.title ≠ "High Allocation Variance") ∧
        (analyzeSingleTickerRecommendations F r).getLast? = some (strategyCard F r) := by
  have hx : 0 < params.trading_intervals := by linarith
  have hb : 0 < params.total_shares / params.trading_intervals := div_pos hT hx
  have hbounds := allocation_mem_bounds tickerData now params hT hx
  have hne : (simulateRecord Math tickerData now params).allocation.allocations ≠ [] := by
    rw [simulateRecord_allocations]
    have hp := toLength_pos params.trading_intervals h1
    intro hnil
    have hlen := congrArg List.length hnil
    simp only [List.length_map, List.length_range, List.length_nil] at hlen
    omega
  have hvar := calculateVariance_le_sq _ _ _ hne hbounds
  have hstd : (simulateRecord Math tickerData now params).risk_metrics.allocation_std ≤
      0.2 * (params.total_shares / params.trading_intervals) := by
    show Real.sqrt (calculateVariance Math
      (simulateRecord Math tickerData now params).allocation.allocations) ≤ _
    rw [Real.sqrt_le_iff]
    refine ⟨by nlinarith, ?_⟩
    have e : (1.2 * (params.total_shares / params.trading_intervals) -
        params.total_shares / params.trading_intervals) ^ 2 =
        (0.2 * (params.total_shares / params.trading_intervals)) ^ 2 := by
      ring
    rw [e] at hvar
    exact hvar
  have hcv : (simulateRecord Math tickerData now params).risk_metrics.allocation_std /
      ((simulateRecord Math tickerData now params).allocation.total_shares /
        (simulateRecord Math tickerData now params).allocation.intervals) ≤ 0.2 := by
    show _ / (params.total_shares / params.trading_intervals) ≤ 0.2
    rw [div_le_iff₀ hb]
    exact hstd
  have hnot : ¬ ((simulateRecord Math tickerData now params).risk_metrics.allocation_std /
      ((simulateRecord Math tickerData now params).allocation.total_shares /
        (simulateRecord Math tickerData now params).allocation.intervals) > 0.3) := by
    intro hgt
    have : (0.3 : ℝ) < 0.2 := lt_of_lt_of_le hgt hcv
    norm_num at this
  refine ⟨_, simulateAnalysis_of_find Math data now params tickerData hfind, hcv, hnot, ?_⟩
  intro F
  have hv : ¬ (allocationCV (simulateRecord Math tickerData now params) > 0.3) := hnot
  by_cases hc : (simulateRecord Math tickerData now params).risk_metrics.total_slippage_cost
      > 0.01 <;>
    simp [analyzeSingleTickerRecommendations, hc, hv, highCostCard, optimalCostCard,
      strategyCard]

theorem simulateAnalysis_cv_le_witness :
    ∃ r, simulateAnalysis Math sampleData "2025-07-29T05:56:43.000Z" defaultParams = .ok r ∧
      r.risk_metrics.allocation_std / (r.allocation.total_shares / r.allocation.intervals)
        ≤ 0.2 ∧
      (analyzeSingleTickerRecommendations realFormat r).length = 2 := by
  obtain ⟨r, hr, hcv, -, hF⟩ :=
    simulateAnalysis_cv_le sampleData "2025-07-29T05:56:43.000Z" defaultParams crwvRecord
      (by simp [sampleData, defaultParams, crwvRecord, findTicker_cons_none,
        findTicker_cons_some])
      (by norm_num [defaultParams]) (by norm_num [defaultParams])
  exact ⟨r, hr, hcv, (hF realFormat).1⟩

/-- C18: `displayResults` always returns, and it generates recommendations
(through `showComparisonSection` and `generateTradingRecommendations`) iff the
list has more than one element; what it generates comes from the comparison
branch, called on a non-empty list.  In a run of `runAnalysis` the branch for a
single result is therefore never taken, and the analysis of a single ticker
displays no recommendations.  Called directly, `generateTradingRecommendations`
would take the single branch on a one-element list and fail on the empty
list. -/
theorem displayResults_recommendations_iff {α : Type} [LinearOrderedField α] [FloorRing α]
    (M : JSMath α) (F : JSFormat α) (data : List (Option (TickerRecord α)))
    (clock : String → String) (raw : AnalysisParameters JSNum)
    (params : AnalysisParameters α) (results : List (AnalysisResult α)) :
    (∃ d, displayResults F results = .ok d ∧
        (d.recommendations.isSome = true ↔ 1 < results.length) ∧
        (∀ run, d.recommendations = some run →
          run.branch = .comparison ∧ results ≠ [] ∧
          analyzeComparisonRecommendations F results = .ok run.cards)) ∧
      (∀ result : AnalysisResult α,
        displayResults F [result] =
          .ok { sections := [result.ticker], recommendations := none }) ∧
      (∀ d run, (runAnalysis M F data clock raw params).displayed = some d →
        d.recommendations = some run →
        run.branch = .comparison ∧ run.branch ≠ .single ∧ params.ticker = "ALL" ∧
        1 < (analyzeAllTickers M data clock params).results.length) ∧
      (params.ticker ≠ "ALL" →
        ∀ d, (runAnalysis M F data clock raw params).displayed = some d →
          d.recommendations = none) ∧
      (∀ result : AnalysisResult α,
        generateTradingRecommendations F [result] =
          .ok { branch := .single, cards := analyzeSingleTickerRecommendations F result }) ∧
      generateTradingRecommendations F ([] : List (AnalysisResult α)) =
        .error "Reduce of empty array with no initial value" := by
  refine ⟨?_, ?_, ?_, ?_, ?_, ?_⟩
  · obtain ⟨d, hd, -, hiff, hrun⟩ := displayResults_spec F results
    refine ⟨d, hd, hiff, ?_⟩
    intro run hr
    obtain ⟨hb, hlen, hcards⟩ := hrun run hr
    refine ⟨hb, ?_, hcards⟩
    intro hnil
    rw [hnil] at hlen
    simp at hlen
  · intro result
    exact displayResults_of_le_one F [result] (by simp)
  · intro d run hd hr
    rcases runAnalysis_displayed M F data clock raw params d hd with ⟨ht, hdisp⟩ | ⟨-, result, hdisp⟩
    · obtain ⟨d2, hd2, -, -, hrun⟩ :=
        displayResults_spec F (analyzeAllTickers M data clock params).results
      rw [hd2] at hdisp
      simp only [Except.ok.injEq] at hdisp
      subst hdisp
      obtain ⟨hb, hlen, -⟩ := hrun run hr
      exact ⟨hb, by rw [hb]; decide, ht, hlen⟩
    · rw [displayResults_of_le_one F [result] (by simp)] at hdisp
      simp only [Except.ok.injEq] at hdisp
      subst hdisp
      cases hr
  · intro ht d hd
    rcases runAnalysis_displayed M F data clock raw params d hd with ⟨hall, -⟩ | ⟨-, result, hdisp⟩
    · exact absurd hall ht
    · rw [displayResults_of_le_one F [result] (by simp)] at hdisp
      simp only [Except.ok.injEq] at hdisp
      subst hdisp
      rfl
  · intro result
    simp [generateTradingRecommendations]
  · simp [generateTradingRecommendations, analyzeComparisonRecommendations, bestOf, reduce1,
      reduceEmptyMessage]

end SlippageDashboard
